import Mathlib

/-!
# lc3sim-c libretro frontend: text console, input unifier, renderer, pacer

Shallow embedding of `src/libretro/libretro.c`.

* The file-scope statics (`textbuf`, `cursor_x`, `cursor_y`, `vm`, `vm_halted`,
  `framebuffer`, and the function-local static `waiting_for_release`) become
  fields of explicit state records that every operation takes and returns.
* `int` cursors are `Int`; bytes and pixels are `Nat`.
* An array write whose subscript lies outside the array is undefined in C; the
  embedding of `lc3_putchar` returns `none` there.
* The VM (`../vm.h`), the glyph table (`font8x8.h`) and the host callbacks are
  not part of this translation unit; they enter as parameters.
-/

namespace LC3Sim

/-! ## Sizing constants (`#define`s at the head of the file) -/

def VIDEO_WIDTH : Nat := 256
def VIDEO_HEIGHT : Nat := 256
def BYTES_PER_PIXEL : Nat := 4
def FB_COLS : Nat := 40
def FB_ROWS : Nat := 30
def CHAR_W : Nat := 8
def CHAR_H : Nat := 8

/-! ## Text console -/

/-- Console state: `textbuf[FB_ROWS][FB_COLS]` read as `textbuf row col` (only
`row < 30`, `col < 40` are cells of the array), and the two `int` cursors. -/
structure Console where
  textbuf : Nat → Nat → Nat
  cursor_x : Int
  cursor_y : Int

/-- The cleared console: zero-initialised statics, also what `retro_load_game`
establishes with `memset(textbuf, 0, sizeof(textbuf)); cursor_x = cursor_y = 0`. -/
def Console.cleared : Console :=
  { textbuf := fun _ _ => 0, cursor_x := 0, cursor_y := 0 }

/-- The assignment `textbuf[y][x] = c`. -/
def storeCell (tb : Nat → Nat → Nat) (y x c : Nat) : Nat → Nat → Nat :=
  fun r k => if r = y ∧ k = x then c else tb r k

/-- The call `memmove(textbuf, textbuf[1], (FB_ROWS - 1) * FB_COLS)`: the bytes of
rows `1 .. FB_ROWS-1` are copied onto rows `0 .. FB_ROWS-2`. -/
def memmoveUp (tb : Nat → Nat → Nat) : Nat → Nat → Nat :=
  fun r k => if r < FB_ROWS - 1 ∧ k < FB_COLS then tb (r + 1) k else tb r k

/-- The call `memset(textbuf[FB_ROWS - 1], 0, FB_COLS)`. -/
def memsetLastRow (tb : Nat → Nat → Nat) : Nat → Nat → Nat :=
  fun r k => if r = FB_ROWS - 1 ∧ k < FB_COLS then 0 else tb r k

/-- The trailing block of `lc3_putchar`:
`if (cursor_y >= FB_ROWS) { memmove; memset; cursor_y = FB_ROWS - 1; }`. -/
def scrollCheck (s : Console) : Console :=
  if s.cursor_y ≥ (FB_ROWS : Int) then
    { textbuf := memsetLastRow (memmoveUp s.textbuf)
      cursor_x := s.cursor_x
      cursor_y := (FB_ROWS : Int) - 1 }
  else s

/-- Embedding of `lc3_putchar(uint16_t v)`. The result is `none` exactly when the
store `textbuf[cursor_y][cursor_x++] = c` would fall outside the array. -/
def lc3_putchar (s : Console) (v : Nat) : Option Console :=
  let c := v &&& 0xFF
  if c = 13 then
    some { s with cursor_x := 0 }
  else if c = 10 then
    some (scrollCheck { s with cursor_x := 0, cursor_y := s.cursor_y + 1 })
  else if 32 ≤ c ∧ c < 127 then
    if 0 ≤ s.cursor_y ∧ s.cursor_y < (FB_ROWS : Int) ∧
        0 ≤ s.cursor_x ∧ s.cursor_x < (FB_COLS : Int) then
      let s1 : Console :=
        { textbuf := storeCell s.textbuf s.cursor_y.toNat s.cursor_x.toNat c
          cursor_x := s.cursor_x + 1
          cursor_y := s.cursor_y }
      if s1.cursor_x ≥ (FB_COLS : Int) then
        some (scrollCheck { s1 with cursor_x := 0, cursor_y := s1.cursor_y + 1 })
      else
        some (scrollCheck s1)
    else none
  else
    some (scrollCheck s)

/-- Cursor inside the grid. -/
def Console.cursorInBounds (s : Console) : Prop :=
  0 ≤ s.cursor_x ∧ s.cursor_x < 40 ∧ 0 ≤ s.cursor_y ∧ s.cursor_y < 30

/-- Console well-formedness: cursor inside the grid, every cell empty or a
printable byte. -/
def Console.wf (s : Console) : Prop :=
  s.cursorInBounds ∧
    ∀ r, r < 30 → ∀ k, k < 40 → s.textbuf r k = 0 ∨ (32 ≤ s.textbuf r k ∧ s.textbuf r k ≤ 126)

/-! ## Input unifier -/

/-- Modelled from the spec: `libretro.h` is not among the sources; the keyboard
codes are the ones the libretro API fixes (`RETROK_BACKSPACE = 8`). -/
def RETROK_BACKSPACE : Nat := 8

/-- Modelled from the spec: libretro key code of Enter (`RETROK_RETURN = 13`). -/
def RETROK_RETURN : Nat := 13

/-- Modelled from the spec: libretro key code of the letter key `a`
(`RETROK_a = 97`); the letter keys are contiguous up to `RETROK_z`. -/
def RETROK_a : Nat := 97

/-- Modelled from the spec: libretro key code of the letter key `z`
(`RETROK_z = 122`). -/
def RETROK_z : Nat := 122

/-- Modelled from the spec: `libretro.h` is not among the sources; joypad button
ids as fixed by the libretro API (`B = 0`). -/
def RETRO_DEVICE_ID_JOYPAD_B : Nat := 0

/-- Modelled from the spec: libretro joypad id `Y = 1`. -/
def RETRO_DEVICE_ID_JOYPAD_Y : Nat := 1

/-- Modelled from the spec: libretro joypad id `START = 3`. -/
def RETRO_DEVICE_ID_JOYPAD_START : Nat := 3

/-- Modelled from the spec: libretro joypad id `UP = 4`. -/
def RETRO_DEVICE_ID_JOYPAD_UP : Nat := 4

/-- Modelled from the spec: libretro joypad id `DOWN = 5`. -/
def RETRO_DEVICE_ID_JOYPAD_DOWN : Nat := 5

/-- Modelled from the spec: libretro joypad id `LEFT = 6`. -/
def RETRO_DEVICE_ID_JOYPAD_LEFT : Nat := 6

/-- Modelled from the spec: libretro joypad id `RIGHT = 7`. -/
def RETRO_DEVICE_ID_JOYPAD_RIGHT : Nat := 7

/-- Modelled from the spec: libretro joypad id `A = 8`. -/
def RETRO_DEVICE_ID_JOYPAD_A : Nat := 8

/-- Modelled from the spec: libretro joypad id `X = 9`. -/
def RETRO_DEVICE_ID_JOYPAD_X : Nat := 9

/-- What the host reports after one `input_poll_cb()`:
`keyboard i` is `input_state_cb(0, RETRO_DEVICE_KEYBOARD, 0, i) != 0` and
`joypad i` is `input_state_cb(0, RETRO_DEVICE_JOYPAD, 0, i) != 0`. -/
structure InputSnapshot where
  keyboard : Nat → Bool
  joypad : Nat → Bool

/-- The local table `buttons[]` of `lc3_getchar`, in declaration order:
pairs `(id, c)`. -/
def buttons : List (Nat × Nat) :=
  [ (RETRO_DEVICE_ID_JOYPAD_A, ('a').toNat),
    (RETRO_DEVICE_ID_JOYPAD_B, ('b').toNat),
    (RETRO_DEVICE_ID_JOYPAD_X, ('x').toNat),
    (RETRO_DEVICE_ID_JOYPAD_Y, ('y').toNat),
    (RETRO_DEVICE_ID_JOYPAD_UP, ('u').toNat),
    (RETRO_DEVICE_ID_JOYPAD_DOWN, ('d').toNat),
    (RETRO_DEVICE_ID_JOYPAD_LEFT, ('l').toNat),
    (RETRO_DEVICE_ID_JOYPAD_RIGHT, ('r').toNat),
    (RETRO_DEVICE_ID_JOYPAD_START, 10) ]

/-- Embedding of `lc3_getchar`. Argument `w` is the static
`waiting_for_release` on entry, `inp` the snapshot the poll observes; the result
is the returned `uint16_t` and the flag on exit. Each `for` loop returns at its
first active control, which is what `List.find?` selects. -/
def lc3_getchar (w : Bool) (inp : InputSnapshot) : Nat × Bool :=
  match (List.range 256).find? inp.keyboard with
  | some i => if !w then (i, true) else (0xFFFF, w)
  | none =>
    match buttons.find? (fun b => inp.joypad b.1) with
    | some b => if !w then (b.2, true) else (0xFFFF, w)
    | none => (0xFFFF, false)

/-- Embedding of `get_key_from_keyboard`. -/
def get_key_from_keyboard (inp : InputSnapshot) : Nat :=
  match (List.range' RETROK_a (RETROK_z + 1 - RETROK_a)).find? inp.keyboard with
  | some i => ('a').toNat + (i - RETROK_a)
  | none =>
    if inp.keyboard RETROK_RETURN then 10
    else if inp.keyboard RETROK_BACKSPACE then 8
    else 0

/-- Embedding of `get_key_from_gamepad`. -/
def get_key_from_gamepad (inp : InputSnapshot) : Nat :=
  if inp.joypad RETRO_DEVICE_ID_JOYPAD_A then ('a').toNat
  else if inp.joypad RETRO_DEVICE_ID_JOYPAD_B then ('b').toNat
  else if inp.joypad RETRO_DEVICE_ID_JOYPAD_X then ('x').toNat
  else if inp.joypad RETRO_DEVICE_ID_JOYPAD_Y then ('y').toNat
  else if inp.joypad RETRO_DEVICE_ID_JOYPAD_UP then ('u').toNat
  else if inp.joypad RETRO_DEVICE_ID_JOYPAD_DOWN then ('d').toNat
  else if inp.joypad RETRO_DEVICE_ID_JOYPAD_LEFT then ('l').toNat
  else if inp.joypad RETRO_DEVICE_ID_JOYPAD_RIGHT then ('r').toNat
  else if inp.joypad RETRO_DEVICE_ID_JOYPAD_START then 10
  else 0

/-- A run of consecutive `lc3_getchar` calls, one snapshot per call: the values
returned, in order, and the flag after the last call. -/
def pollSeq : Bool → List InputSnapshot → List Nat × Bool
  | w, [] => ([], w)
  | w, inp :: rest =>
    let r := lc3_getchar w inp
    let t := pollSeq r.2 rest
    (r.1 :: t.1, t.2)

/-- Some tracked control is active: one of the 256 keyboard codes or one of the
nine joypad controls of `buttons`. -/
def anyActive (inp : InputSnapshot) : Prop :=
  (∃ i, i < 256 ∧ inp.keyboard i = true) ∨ (∃ b, b ∈ buttons ∧ inp.joypad b.1 = true)

/-- No tracked control is active. -/
def noneActive (inp : InputSnapshot) : Prop :=
  (∀ i, i < 256 → inp.keyboard i = false) ∧ (∀ b, b ∈ buttons → inp.joypad b.1 = false)

/-- Keyboard code `k` is the only active tracked control. -/
def onlyKey (inp : InputSnapshot) (k : Nat) : Prop :=
  (∀ i, i < 256 → (inp.keyboard i = true ↔ i = k)) ∧
    (∀ b, b ∈ buttons → inp.joypad b.1 = false)

/-- Joypad control `id` is the only active tracked control. -/
def onlyButton (inp : InputSnapshot) (id : Nat) : Prop :=
  (∀ i, i < 256 → inp.keyboard i = false) ∧
    (∀ b, b ∈ buttons → (inp.joypad b.1 = true ↔ b.1 = id))

/-- Snapshot with exactly keyboard code `k` active. -/
def keyDown (k : Nat) : InputSnapshot :=
  { keyboard := fun i => i == k, joypad := fun _ => false }

/-- Snapshot with exactly joypad id `id` active. -/
def buttonDown (id : Nat) : InputSnapshot :=
  { keyboard := fun _ => false, joypad := fun i => i == id }

/-- Snapshot with nothing active. -/
def allReleased : InputSnapshot :=
  { keyboard := fun _ => false, joypad := fun _ => false }

/-! ## Frame renderer -/

/-- The foreground pixel value written by the render pass. -/
def FOREGROUND : Nat := 0xFFFFFFFF

/-- The test `row & (1 << gx)` on row `gy` of the glyph of `c`, where
`font c gy` is the byte `font8x8[c][gy]` (the table of `font8x8.h` is a
parameter). -/
def glyphBit (font : Nat → Nat → Nat) (c gx gy : Nat) : Bool :=
  (font c gy) &&& (1 <<< gx) != 0

/-- The index `py * VIDEO_WIDTH + px` with `px = x * CHAR_W + gx` and
`py = y * CHAR_H + gy`. -/
def pixelIndex (y x gy gx : Nat) : Nat :=
  (y * CHAR_H + gy) * VIDEO_WIDTH + (x * CHAR_W + gx)

/-- The assignment `framebuffer[i] = v`. -/
def storePixel (fb : Nat → Nat) (i v : Nat) : Nat → Nat :=
  fun j => if j = i then v else fb j

/-- The call `memset(framebuffer, 0, VIDEO_WIDTH * VIDEO_HEIGHT * sizeof(uint32_t))`. -/
def clearFramebuffer (fb : Nat → Nat) : Nat → Nat :=
  fun j => if j < VIDEO_WIDTH * VIDEO_HEIGHT then 0 else fb j

/-- Innermost loop `for (gx = 0; gx < CHAR_W; gx++)` of the render pass. -/
def blitRow (font : Nat → Nat → Nat) (c y x gy : Nat) (fb : Nat → Nat) : Nat → Nat :=
  (List.range CHAR_W).foldl
    (fun fb gx => if glyphBit font c gx gy then storePixel fb (pixelIndex y x gy gx) FOREGROUND
      else fb) fb

/-- Loop `for (gy = 0; gy < CHAR_H; gy++)` over the rows of one glyph. -/
def blitGlyph (font : Nat → Nat → Nat) (c y x : Nat) (fb : Nat → Nat) : Nat → Nat :=
  (List.range CHAR_H).foldl (fun fb gy => blitRow font c y x gy fb) fb

/-- Loop `for (x = 0; x < FB_COLS; x++)` over one text row, with the
`if (!c) continue;` skip. -/
def renderTextRow (font : Nat → Nat → Nat) (tb : Nat → Nat → Nat) (y : Nat)
    (fb : Nat → Nat) : Nat → Nat :=
  (List.range FB_COLS).foldl
    (fun fb x => if tb y x = 0 then fb else blitGlyph font (tb y x) y x fb) fb

/-- The render pass of `retro_run`: `for (y = 0; y < FB_ROWS; y++)` over the
text rows. -/
def renderGrid (font : Nat → Nat → Nat) (tb : Nat → Nat → Nat) (fb : Nat → Nat) : Nat → Nat :=
  (List.range FB_ROWS).foldl (fun fb y => renderTextRow font tb y fb) fb

/-- The pixel at column `px`, row `py` of the row-major buffer. -/
def pixelAt (fb : Nat → Nat) (px py : Nat) : Nat := fb (py * VIDEO_WIDTH + px)

/-- Some glyph bit of some non-empty cell is written to buffer index `i` by the
render pass: the loop variables `y, x, gy, gx` range as in the source and the
store goes to `pixelIndex y x gy gx`. -/
def paints (font : Nat → Nat → Nat) (tb : Nat → Nat → Nat) (i : Nat) : Prop :=
  ∃ y, y ∈ List.range FB_ROWS ∧ ∃ x, x ∈ List.range FB_COLS ∧ tb y x ≠ 0 ∧
    ∃ gy, gy ∈ List.range CHAR_H ∧ ∃ gx, gx ∈ List.range CHAR_W ∧
      glyphBit font (tb y x) gx gy = true ∧ i = pixelIndex y x gy gx

/-- The pixel coordinate `(px, py)` is `(cell_column*8 + bit_x, cell_row*8 + bit_y)`
for a set glyph bit of a non-empty cell of the 30x40 grid. -/
def glyphCoordinate (font : Nat → Nat → Nat) (tb : Nat → Nat → Nat) (px py : Nat) : Prop :=
  ∃ y, y < 30 ∧ ∃ x, x < 40 ∧ tb y x ≠ 0 ∧ ∃ gy, gy < 8 ∧ ∃ gx, gx < 8 ∧
    glyphBit font (tb y x) gx gy = true ∧ px = x * 8 + gx ∧ py = y * 8 + gy

/-- A glyph table used at concrete inputs: the letter `A` (code 65) has the rows
`0C 1E 33 33 3F 33 33 00`, every other code is blank. -/
def sampleFont : Nat → Nat → Nat :=
  fun c gy => if c = 65 then [0x0C, 0x1E, 0x33, 0x33, 0x3F, 0x33, 0x33, 0x00].getD gy 0 else 0

/-- A grid that holds `c` in cell `(y, x)` and is empty elsewhere. -/
def singleCell (y x c : Nat) : Nat → Nat → Nat :=
  fun r k => if r = y ∧ k = x then c else 0

/-! ## Execution pacer and lifecycle -/

/-- Result code of `vm_step` (`vm.h` is not among the sources): success or
anything else. -/
inductive vm_run_result where
  | VM_RUN_SUCCESS
  | failure (code : Nat)
  deriving DecidableEq

/-- What one `vm_step(vm)` call leaves behind: the VM, the console and debounce
flag as its output and input callbacks (`lc3_putchar`, `lc3_getchar`) left
them, and the result code. -/
structure StepOutcome (σ : Type) where
  vm : σ
  console : Console
  waiting_for_release : Bool
  result : vm_run_result

/-- The external VM of `../vm.h`, taken as a parameter. The state type `σ` is
whatever the handle points to (together with whatever of the host the VM's
input callback observes). -/
structure VMApi (σ : Type) where
  vm_create : σ
  vm_load_os : σ → σ
  vm_load_file : σ → String → σ × Bool
  vm_step : σ → Console → Bool → StepOutcome σ

/-- The statics of the translation unit. The field `vm` is `none` for `NULL`. -/
structure Core (σ : Type) where
  console : Console
  waiting_for_release : Bool
  vm : Option σ
  vm_halted : Bool
  framebuffer : Nat → Nat

/-- State threaded through the step loop of `retro_run`; `steps` counts the
`vm_step` calls made so far in this call. -/
structure PacerState (σ : Type) where
  vm : σ
  console : Console
  waiting_for_release : Bool
  vm_halted : Bool
  steps : Nat

/-- The loop `for (i = 0; i < 1000; i++) { r = vm_step(vm); if (r != VM_RUN_SUCCESS)
{ vm_halted = true; break; } }` with `n` iterations left. -/
def stepLoop {σ : Type} (api : VMApi σ) : Nat → PacerState σ → PacerState σ
  | 0, p => p
  | n + 1, p =>
    let r := api.vm_step p.vm p.console p.waiting_for_release
    if r.result ≠ vm_run_result.VM_RUN_SUCCESS then
      { vm := r.vm, console := r.console, waiting_for_release := r.waiting_for_release,
        vm_halted := true, steps := p.steps + 1 }
    else
      stepLoop api n
        { vm := r.vm, console := r.console, waiting_for_release := r.waiting_for_release,
          vm_halted := p.vm_halted, steps := p.steps + 1 }

/-- What one `retro_run` call does: the statics afterwards, the number of
`vm_step` calls it made, and the buffer passed to `video_cb`. -/
structure RunOutcome (σ : Type) where
  state : Core σ
  steps : Nat
  video : Nat → Nat

/-- Embedding of `retro_run`: clear the framebuffer; under the guard
`if (!vm || vm_halted)` pass it to `video_cb` and return; otherwise run the step
loop, then the render pass, then pass the buffer to `video_cb`. The calls
`input_poll_cb()` and `log_cb(...)` do not touch the statics. -/
def retro_run {σ : Type} (api : VMApi σ) (font : Nat → Nat → Nat) (s : Core σ) :
    RunOutcome σ :=
  let fb0 := clearFramebuffer s.framebuffer
  match s.vm with
  | none => { state := { s with framebuffer := fb0 }, steps := 0, video := fb0 }
  | some v =>
    if s.vm_halted then
      { state := { s with framebuffer := fb0 }, steps := 0, video := fb0 }
    else
      let p := stepLoop api 1000
        { vm := v, console := s.console, waiting_for_release := s.waiting_for_release,
          vm_halted := s.vm_halted, steps := 0 }
      let fb1 := renderGrid font p.console.textbuf fb0
      { state :=
          { console := p.console, waiting_for_release := p.waiting_for_release,
            vm := some p.vm, vm_halted := p.vm_halted, framebuffer := fb1 }
        steps := p.steps
        video := fb1 }

/-- Embedding of `retro_reset`: `if (!vm) return; vm_destroy(vm); vm = vm_create();
vm_load_os(vm); vm_halted = false;`. -/
def retro_reset {σ : Type} (api : VMApi σ) (s : Core σ) : Core σ :=
  match s.vm with
  | none => s
  | some _ => { s with vm := some (api.vm_load_os api.vm_create), vm_halted := false }

/-- Embedding of `retro_unload_game`. -/
def retro_unload_game {σ : Type} (s : Core σ) : Core σ :=
  match s.vm with
  | none => s
  | some _ => { s with vm := none }

/-- The argument of `retro_load_game`: `path` is `none` for a null path. -/
structure retro_game_info where
  path : Option String

/-- Embedding of `retro_load_game`: null checks, console clear, VM creation and
OS load, program load (on failure `vm = NULL` and `false`), `vm_halted = false`,
pixel-format negotiation (on failure `false`). Here `info = none` is a null pointer and
`pixel_format_ok` is what `environ_cb(RETRO_ENVIRONMENT_SET_PIXEL_FORMAT, &fmt)`
answers. Returns the statics afterwards and the `bool` result. -/
def retro_load_game {σ : Type} (api : VMApi σ) (pixel_format_ok : Bool)
    (info : Option retro_game_info) (s : Core σ) : Core σ × Bool :=
  match info with
  | none => (s, false)
  | some i =>
    match i.path with
    | none => (s, false)
    | some path =>
      let s1 : Core σ := { s with console := Console.cleared }
      let r := api.vm_load_file (api.vm_load_os api.vm_create) path
      if r.2 = false then
        ({ s1 with vm := none }, false)
      else
        let s2 : Core σ := { s1 with vm := some r.1, vm_halted := false }
        if pixel_format_ok = false then (s2, false) else (s2, true)

/-- State of the VM, console and flag after `j` consecutive `vm_step` calls,
whatever their results. -/
def afterSteps {σ : Type} (api : VMApi σ) : Nat → σ × Console × Bool → σ × Console × Bool
  | 0, x => x
  | j + 1, x =>
    let r := api.vm_step x.1 x.2.1 x.2.2
    afterSteps api j (r.vm, r.console, r.waiting_for_release)

/-- Result of the step made after `j` earlier ones (the `(j+1)`-th step). -/
def stepResult {σ : Type} (api : VMApi σ) (j : Nat) (x : σ × Console × Bool) : vm_run_result :=
  let y := afterSteps api j x
  (api.vm_step y.1 y.2.1 y.2.2).result

/-- The statics after `n` further `retro_run` calls. -/
def runFrames {σ : Type} (api : VMApi σ) (font : Nat → Nat → Nat) : Nat → Core σ → Core σ
  | 0, s => s
  | n + 1, s => runFrames api font n (retro_run api font s).state

/-- A VM used at concrete inputs: its state is a counter, each step increments
it and leaves the console and flag alone, and a step succeeds while the counter
is below `limit`. -/
def countingVM (limit : Nat) : VMApi Nat :=
  { vm_create := 0
    vm_load_os := fun v => v
    vm_load_file := fun v _ => (v, true)
    vm_step := fun v con w =>
      { vm := v + 1, console := con, waiting_for_release := w,
        result := if v < limit then vm_run_result.VM_RUN_SUCCESS else vm_run_result.failure 1 } }

/-- A VM used at concrete inputs: every step succeeds and changes nothing. -/
def idleVM : VMApi Unit :=
  { vm_create := ()
    vm_load_os := fun v => v
    vm_load_file := fun v _ => (v, true)
    vm_step := fun v con w =>
      { vm := v, console := con, waiting_for_release := w,
        result := vm_run_result.VM_RUN_SUCCESS } }

/-- A console that holds `A` in cell `(0,0)` with the cursor behind it. -/
def consoleA : Console :=
  { textbuf := singleCell 0 0 65, cursor_x := 1, cursor_y := 0 }

/-- Statics with console `consoleA`, no VM (`vm == NULL`) and pixel buffer `fb`. -/
def idleCore (fb : Nat → Nat) : Core Unit :=
  { console := consoleA, waiting_for_release := false, vm := none, vm_halted := false,
    framebuffer := fb }

/-- Statics with console `consoleA`, a VM and `vm_halted` set, pixel buffer `fb`. -/
def haltedCore (fb : Nat → Nat) : Core Unit :=
  { console := consoleA, waiting_for_release := false, vm := some (), vm_halted := true,
    framebuffer := fb }

/-- Statics with console `consoleA`, a running VM, pixel buffer `fb`. -/
def runningCore (fb : Nat → Nat) : Core Unit :=
  { console := consoleA, waiting_for_release := false, vm := some (), vm_halted := false,
    framebuffer := fb }

/-! ## Runs of `lc3_putchar` calls -/

/-- The trailing block of `lc3_putchar` together with the record of whether its
body ran, that is whether `cursor_y >= FB_ROWS` held on reaching it. -/
def scrollCheckTraced (s : Console) : Console × Bool :=
  (scrollCheck s, decide (s.cursor_y ≥ (FB_ROWS : Int)))

/-- The function `lc3_putchar` with one more output: whether the scroll block
(`memmove`, `memset`, `cursor_y = FB_ROWS - 1`) ran in this call. The early
`return` of the carriage-return branch never reaches the block. -/
def lc3_putchar_traced (s : Console) (v : Nat) : Option (Console × Bool) :=
  let c := v &&& 0xFF
  if c = 13 then
    some ({ s with cursor_x := 0 }, false)
  else if c = 10 then
    some (scrollCheckTraced { s with cursor_x := 0, cursor_y := s.cursor_y + 1 })
  else if 32 ≤ c ∧ c < 127 then
    if 0 ≤ s.cursor_y ∧ s.cursor_y < (FB_ROWS : Int) ∧
        0 ≤ s.cursor_x ∧ s.cursor_x < (FB_COLS : Int) then
      let s1 : Console :=
        { textbuf := storeCell s.textbuf s.cursor_y.toNat s.cursor_x.toNat c
          cursor_x := s.cursor_x + 1
          cursor_y := s.cursor_y }
      if s1.cursor_x ≥ (FB_COLS : Int) then
        some (scrollCheckTraced { s1 with cursor_x := 0, cursor_y := s1.cursor_y + 1 })
      else
        some (scrollCheckTraced s1)
    else none
  else
    some (scrollCheckTraced s)

/-- One more `lc3_putchar(v)` call in a run: `acc` is the console so far and the
number of calls so far in which the scroll block ran; `none` once a store fell
outside the array. -/
def feedStep (acc : Option (Console × Nat)) (v : Nat) : Option (Console × Nat) :=
  match acc with
  | none => none
  | some (s, n) =>
    match lc3_putchar_traced s v with
    | none => none
    | some (s', scrolled) => some (s', if scrolled then n + 1 else n)

/-- The codes `vs` fed to `lc3_putchar` one after the other from console `s`:
the console at the end and the number of scrolls that took place. -/
def feed (s : Console) (vs : List Nat) : Option (Console × Nat) :=
  vs.foldl feedStep (some (s, 0))

/-- The codes `vs` fed to `lc3_putchar` one after the other from console `s`,
without the scroll count: `none` once a store fell outside the array. -/
def feedConsole (s : Console) (vs : List Nat) : Option Console :=
  vs.foldl (fun acc v => acc.bind (fun t => lc3_putchar t v)) (some s)

/-! ## Render pass with checked stores -/

/-- A left fold whose step may fail. -/
def foldOpt {α β : Type} (f : β → α → Option β) : β → List α → Option β
  | b, [] => some b
  | b, a :: l =>
    match f b a with
    | some b' => foldOpt f b' l
    | none => none

/-- The assignment `framebuffer[i] = v` on the `VIDEO_WIDTH * VIDEO_HEIGHT`
elements that `retro_init` allocates: `none` when `i` is not an index of the
array. -/
def storePixelChecked (fb : Nat → Nat) (i v : Nat) : Option (Nat → Nat) :=
  if i < VIDEO_WIDTH * VIDEO_HEIGHT then some (storePixel fb i v) else none

/-- The loop of `blitRow` with checked stores. -/
def blitRowChecked (font : Nat → Nat → Nat) (c y x gy : Nat) (fb : Nat → Nat) :
    Option (Nat → Nat) :=
  foldOpt
    (fun fb gx =>
      if glyphBit font c gx gy then storePixelChecked fb (pixelIndex y x gy gx) FOREGROUND
      else some fb)
    fb (List.range CHAR_W)

/-- The loop of `blitGlyph` with checked stores. -/
def blitGlyphChecked (font : Nat → Nat → Nat) (c y x : Nat) (fb : Nat → Nat) :
    Option (Nat → Nat) :=
  foldOpt (fun fb gy => blitRowChecked font c y x gy fb) fb (List.range CHAR_H)

/-- The loop of `renderTextRow` with checked stores. -/
def renderTextRowChecked (font : Nat → Nat → Nat) (tb : Nat → Nat → Nat) (y : Nat)
    (fb : Nat → Nat) : Option (Nat → Nat) :=
  foldOpt (fun fb x => if tb y x = 0 then some fb else blitGlyphChecked font (tb y x) y x fb)
    fb (List.range FB_COLS)

/-- The render pass of `retro_run` with checked stores: `none` if some store
addresses an index outside the framebuffer. -/
def renderGridChecked (font : Nat → Nat → Nat) (tb : Nat → Nat → Nat) (fb : Nat → Nat) :
    Option (Nat → Nat) :=
  foldOpt (fun fb y => renderTextRowChecked font tb y fb) fb (List.range FB_ROWS)

/-- A glyph table used at concrete inputs: every bit of every glyph is set. -/
def solidFont : Nat → Nat → Nat := fun _ _ => 0xFF

/-- Snapshot with keyboard code `k` active together with every joypad control. -/
def keyWithAllButtons (k : Nat) : InputSnapshot :=
  { keyboard := fun i => i == k, joypad := fun _ => true }

/-- Snapshot with no key active and exactly the joypad ids of `ids` active. -/
def buttonsDown (ids : List Nat) : InputSnapshot :=
  { keyboard := fun _ => false, joypad := fun i => ids.contains i }

/-- A text of 1201 printable characters used at concrete inputs: character `i`
is `32 + i mod 95`. -/
def sampleText : List Nat := (List.range 1201).map (fun i => 32 + i % 95)

/-! ## Theorems -/

theorem land_0xFF (v : Nat) : v &&& 0xFF = v % 256 :=
  Nat.and_pow_two_sub_one_eq_mod v 8

/-! ### Text console: what `lc3_putchar` returns, branch by branch -/

theorem putchar_cr (s : Console) (v : Nat) (h : v % 256 = 13) :
    lc3_putchar s v = some { s with cursor_x := 0 } := by
  simp [lc3_putchar, land_0xFF, h]

theorem putchar_nl (s : Console) (v : Nat) (h : v % 256 = 10) :
    lc3_putchar s v =
      some (scrollCheck { s with cursor_x := 0, cursor_y := s.cursor_y + 1 }) := by
  simp [lc3_putchar, land_0xFF, h]

theorem putchar_printable_inner (s : Console) (v : Nat)
    (hc : 32 ≤ v % 256 ∧ v % 256 ≤ 126) (hb : s.cursorInBounds) (hx : s.cursor_x < 39) :
    lc3_putchar s v =
      some { textbuf := storeCell s.textbuf s.cursor_y.toNat s.cursor_x.toNat (v % 256)
             cursor_x := s.cursor_x + 1
             cursor_y := s.cursor_y } := by
  obtain ⟨h1, h2, h3, h4⟩ := hb
  have e13 : ¬ v % 256 = 13 := by omega
  have e10 : ¬ v % 256 = 10 := by omega
  have epr : 32 ≤ v % 256 ∧ v % 256 < 127 := by omega
  have hin : 0 ≤ s.cursor_y ∧ s.cursor_y < (FB_ROWS : Int) ∧
      0 ≤ s.cursor_x ∧ s.cursor_x < (FB_COLS : Int) := by
    simp only [FB_ROWS, FB_COLS]; omega
  have hw : ¬ (s.cursor_x + 1 ≥ (FB_COLS : Int)) := by simp only [FB_COLS]; omega
  have hs : ¬ (s.cursor_y ≥ (FB_ROWS : Int)) := by simp only [FB_ROWS]; omega
  simp only [lc3_putchar, land_0xFF, e13, e10, epr, hin, hw, scrollCheck, hs, if_true, if_false,
    and_self]

theorem putchar_printable_wrap (s : Console) (v : Nat)
    (hc : 32 ≤ v % 256 ∧ v % 256 ≤ 126) (hb : s.cursorInBounds) (hx : s.cursor_x = 39) :
    lc3_putchar s v =
      some (scrollCheck
        { textbuf := storeCell s.textbuf s.cursor_y.toNat 39 (v % 256)
          cursor_x := 0
          cursor_y := s.cursor_y + 1 }) := by
  obtain ⟨h1, h2, h3, h4⟩ := hb
  have e13 : ¬ v % 256 = 13 := by omega
  have e10 : ¬ v % 256 = 10 := by omega
  have epr : 32 ≤ v % 256 ∧ v % 256 < 127 := by omega
  have hin : 0 ≤ s.cursor_y ∧ s.cursor_y < (FB_ROWS : Int) ∧
      0 ≤ s.cursor_x ∧ s.cursor_x < (FB_COLS : Int) := by
    simp only [FB_ROWS, FB_COLS]; omega
  have hw : s.cursor_x + 1 ≥ (FB_COLS : Int) := by simp only [FB_COLS]; omega
  have ht : s.cursor_x.toNat = 39 := by omega
  simp only [lc3_putchar, land_0xFF, e13, e10, epr, hin, hw, ht, if_true, if_false, and_self]

theorem putchar_other (s : Console) (v : Nat)
    (h13 : v % 256 ≠ 13) (h10 : v % 256 ≠ 10) (hnp : ¬ (32 ≤ v % 256 ∧ v % 256 ≤ 126)) :
    lc3_putchar s v = some (scrollCheck s) := by
  have epr : ¬ (32 ≤ v % 256 ∧ v % 256 < 127) := by omega
  simp only [lc3_putchar, land_0xFF, h13, h10, epr, if_false]

theorem scrollCheck_of_lt (s : Console) (h : s.cursor_y < 30) : scrollCheck s = s := by
  have hs : ¬ (s.cursor_y ≥ (FB_ROWS : Int)) := by simp only [FB_ROWS]; omega
  simp only [scrollCheck, hs, if_false]

theorem scrollCheck_of_ge (s : Console) (h : 30 ≤ s.cursor_y) :
    scrollCheck s =
      { textbuf := memsetLastRow (memmoveUp s.textbuf), cursor_x := s.cursor_x, cursor_y := 29 } := by
  have hs : s.cursor_y ≥ (FB_ROWS : Int) := by simp only [FB_ROWS]; omega
  have e : (FB_ROWS : Int) - 1 = 29 := by simp only [FB_ROWS]; norm_num
  simp only [scrollCheck, hs, if_true, e]

theorem scrolled_cell (tb : Nat → Nat → Nat) (r k : Nat) (hr : r < 30) (hk : k < 40) :
    memsetLastRow (memmoveUp tb) r k = if r = 29 then 0 else tb (r + 1) k := by
  simp only [memsetLastRow, memmoveUp, FB_ROWS, FB_COLS]
  by_cases h : r = 29
  · simp [h, hk]
  · have : r < 29 := by omega
    simp [h, hk, this]

theorem storeCell_apply (tb : Nat → Nat → Nat) (y x c r k : Nat) :
    storeCell tb y x c r k = if r = y ∧ k = x then c else tb r k := rfl

theorem cellOk_store (tb : Nat → Nat → Nat) (y x c : Nat) (hc : 32 ≤ c ∧ c ≤ 126)
    (h : ∀ r, r < 30 → ∀ k, k < 40 → tb r k = 0 ∨ (32 ≤ tb r k ∧ tb r k ≤ 126)) :
    ∀ r, r < 30 → ∀ k, k < 40 →
      storeCell tb y x c r k = 0 ∨ (32 ≤ storeCell tb y x c r k ∧ storeCell tb y x c r k ≤ 126) := by
  intro r hr k hk
  rw [storeCell_apply]
  split
  · exact Or.inr hc
  · exact h r hr k hk

theorem cellOk_scrolled (tb : Nat → Nat → Nat)
    (h : ∀ r, r < 30 → ∀ k, k < 40 → tb r k = 0 ∨ (32 ≤ tb r k ∧ tb r k ≤ 126)) :
    ∀ r, r < 30 → ∀ k, k < 40 →
      memsetLastRow (memmoveUp tb) r k = 0 ∨
        (32 ≤ memsetLastRow (memmoveUp tb) r k ∧ memsetLastRow (memmoveUp tb) r k ≤ 126) := by
  intro r hr k hk
  rw [scrolled_cell tb r k hr hk]
  split
  · exact Or.inl rfl
  · exact h (r + 1) (by omega) k hk

theorem wf_scrollCheck (s : Console) (hx : 0 ≤ s.cursor_x ∧ s.cursor_x < 40)
    (hy : 0 ≤ s.cursor_y ∧ s.cursor_y ≤ 30)
    (h : ∀ r, r < 30 → ∀ k, k < 40 → s.textbuf r k = 0 ∨ (32 ≤ s.textbuf r k ∧ s.textbuf r k ≤ 126)) :
    (scrollCheck s).wf := by
  by_cases hlt : s.cursor_y < 30
  · rw [scrollCheck_of_lt s hlt]
    exact ⟨⟨hx.1, hx.2, hy.1, hlt⟩, h⟩
  · rw [scrollCheck_of_ge s (by omega)]
    refine ⟨⟨hx.1, hx.2, by norm_num, by norm_num⟩, ?_⟩
    exact cellOk_scrolled s.textbuf h

/-- Claim C1. Console well-formedness is an invariant of `lc3_putchar`: the
cleared console is well-formed, and from every well-formed console every code
is consumed without an out-of-bounds store and leaves a well-formed console
(cursor column in `[0,40)`, cursor row in `[0,30)`, every cell `0` or in
`[32,126]`). -/
theorem C1_console_wf_invariant :
    Console.cleared.wf ∧
      ∀ (s : Console) (v : Nat), s.wf → ∃ s', lc3_putchar s v = some s' ∧ s'.wf := by
  refine ⟨⟨⟨le_refl _, by norm_num [Console.cleared], le_refl _, by norm_num [Console.cleared]⟩,
    fun r _ k _ => Or.inl rfl⟩, ?_⟩
  intro s v hwf
  obtain ⟨hb, hcells⟩ := hwf
  have hb' := hb
  obtain ⟨h1, h2, h3, h4⟩ := hb'
  by_cases e13 : v % 256 = 13
  · exact ⟨_, putchar_cr s v e13, ⟨le_refl _, by norm_num, h3, h4⟩, hcells⟩
  by_cases e10 : v % 256 = 10
  · refine ⟨_, putchar_nl s v e10, ?_⟩
    exact wf_scrollCheck _ ⟨le_refl _, by norm_num⟩ ⟨by show 0 ≤ s.cursor_y + 1; omega,
      by show s.cursor_y + 1 ≤ 30; omega⟩ hcells
  by_cases hp : 32 ≤ v % 256 ∧ v % 256 ≤ 126
  · by_cases hx : s.cursor_x < 39
    · refine ⟨_, putchar_printable_inner s v hp hb hx, ⟨?_, ?_, h3, h4⟩, ?_⟩
      · show 0 ≤ s.cursor_x + 1; omega
      · show s.cursor_x + 1 < 40; omega
      · exact cellOk_store s.textbuf _ _ _ hp hcells
    · have hx' : s.cursor_x = 39 := by omega
      refine ⟨_, putchar_printable_wrap s v hp hb hx', ?_⟩
      exact wf_scrollCheck _ ⟨le_refl _, by norm_num⟩ ⟨by show 0 ≤ s.cursor_y + 1; omega,
        by show s.cursor_y + 1 ≤ 30; omega⟩ (cellOk_store s.textbuf _ _ _ hp hcells)
  · refine ⟨_, putchar_other s v e13 e10 hp, ?_⟩
    exact wf_scrollCheck s ⟨h1, h2⟩ ⟨h3, by omega⟩ hcells

/-- Witness for C1 at the cleared console and the code of `A`. -/
theorem C1_console_wf_invariant_witness :
    Console.cleared.wf ∧ ∃ s', lc3_putchar Console.cleared 65 = some s' ∧ s'.wf :=
  ⟨C1_console_wf_invariant.1,
    C1_console_wf_invariant.2 Console.cleared 65 C1_console_wf_invariant.1⟩

/-- Claim C2. Printable write and wrap: with the cursor at an in-bounds
`(col,row)` other than `(39,29)` and a code whose low byte `c` is in `[32,126]`,
`lc3_putchar` stores `c` in cell `(row,col)`, leaves every other cell as it was,
and moves the cursor to `(col+1,row)` when `col < 39` and to `(0,row+1)` when
`col = 39`. -/
theorem C2_printable_write_and_wrap (s : Console) (v col row : Nat)
    (hx : s.cursor_x = (col : Int)) (hy : s.cursor_y = (row : Int))
    (hcol : col < 40) (hrow : row < 30) (hne : ¬ (col = 39 ∧ row = 29))
    (hc : 32 ≤ v % 256 ∧ v % 256 ≤ 126) :
    ∃ s', lc3_putchar s v = some s' ∧
      s'.textbuf row col = v % 256 ∧
      (∀ r k, ¬ (r = row ∧ k = col) → s'.textbuf r k = s.textbuf r k) ∧
      (col < 39 → s'.cursor_x = (col : Int) + 1 ∧ s'.cursor_y = (row : Int)) ∧
      (col = 39 → s'.cursor_x = 0 ∧ s'.cursor_y = (row : Int) + 1) := by
  have hb : s.cursorInBounds := by
    refine ⟨?_, ?_, ?_, ?_⟩ <;> omega
  have tx : s.cursor_x.toNat = col := by omega
  have ty : s.cursor_y.toNat = row := by omega
  by_cases h39 : col < 39
  · refine ⟨_, putchar_printable_inner s v hc hb (by omega), ?_, ?_, ?_, ?_⟩
    · simp [storeCell_apply, tx, ty]
    · intro r k hrk
      simp only [storeCell_apply, tx, ty, hrk, if_false]
    · intro _
      exact ⟨by simp only [hx], hy⟩
    · intro h; omega
  · have hcol39 : col = 39 := by omega
    have hrow' : row < 29 := by
      by_contra hcon
      exact hne ⟨hcol39, by omega⟩
    rw [putchar_printable_wrap s v hc hb (by omega),
      scrollCheck_of_lt _ (by show s.cursor_y + 1 < 30; omega)]
    refine ⟨_, rfl, ?_, ?_, ?_, ?_⟩
    · simp [storeCell_apply, ty, hcol39]
    · intro r k hrk
      have hrk' : ¬ (r = s.cursor_y.toNat ∧ k = 39) := by
        rw [ty]; rw [hcol39] at hrk; exact hrk
      simp only [storeCell_apply, hrk', if_false]
    · intro h; omega
    · intro _
      exact ⟨rfl, by simp only [hy]⟩

/-- Witness for C2: the character `A` written at the last column of row 3. -/
theorem C2_printable_write_and_wrap_witness :
    ∃ s', lc3_putchar { textbuf := fun _ _ => 0, cursor_x := 39, cursor_y := 3 } 65 = some s' ∧
      s'.textbuf 3 39 = 65 % 256 ∧
      (∀ r k, ¬ (r = 3 ∧ k = 39) → s'.textbuf r k = 0) ∧
      (39 < 39 → s'.cursor_x = ((39 : Nat) : Int) + 1 ∧ s'.cursor_y = ((3 : Nat) : Int)) ∧
      (39 = 39 → s'.cursor_x = 0 ∧ s'.cursor_y = ((3 : Nat) : Int) + 1) :=
  C2_printable_write_and_wrap { textbuf := fun _ _ => 0, cursor_x := 39, cursor_y := 3 } 65 39 3
    rfl rfl (by decide) (by decide) (by decide) (by decide)

/-- Claim C3. Scroll on row overflow. With the cursor on row 29, a newline gives
a grid whose row `i` is the old row `i+1` for `i < 29` and whose row 29 is
empty, cursor `(0,29)`. A printable `c` at cursor `(39,29)` gives a grid whose
row `i` is the old row `i+1` for `i < 28`, whose row 28 is the old row 29 with
cell 39 replaced by `c`, and whose row 29 is empty, cursor `(0,29)`. -/
theorem C3_scroll_on_row_overflow :
    (∀ (s : Console) (v : Nat), s.cursor_y = 29 → v % 256 = 10 →
      ∃ s', lc3_putchar s v = some s' ∧
        (∀ i, i < 29 → ∀ k, k < 40 → s'.textbuf i k = s.textbuf (i + 1) k) ∧
        (∀ k, k < 40 → s'.textbuf 29 k = 0) ∧
        s'.cursor_x = 0 ∧ s'.cursor_y = 29) ∧
    (∀ (s : Console) (v : Nat), s.cursor_x = 39 → s.cursor_y = 29 →
      32 ≤ v % 256 ∧ v % 256 ≤ 126 →
      ∃ s', lc3_putchar s v = some s' ∧
        (∀ i, i < 28 → ∀ k, k < 40 → s'.textbuf i k = s.textbuf (i + 1) k) ∧
        (∀ k, k < 40 → s'.textbuf 28 k = if k = 39 then v % 256 else s.textbuf 29 k) ∧
        (∀ k, k < 40 → s'.textbuf 29 k = 0) ∧
        s'.cursor_x = 0 ∧ s'.cursor_y = 29) := by
  constructor
  · intro s v hy h10
    rw [putchar_nl s v h10, scrollCheck_of_ge _ (by show 30 ≤ s.cursor_y + 1; omega)]
    refine ⟨_, rfl, ?_, ?_, rfl, rfl⟩
    · intro i hi k hk
      show memsetLastRow (memmoveUp s.textbuf) i k = _
      rw [scrolled_cell _ i k (by omega) hk, if_neg (by omega)]
    · intro k hk
      show memsetLastRow (memmoveUp s.textbuf) 29 k = _
      rw [scrolled_cell _ 29 k (by omega) hk, if_pos rfl]
  · intro s v hx hy hc
    have hb : s.cursorInBounds := by
      refine ⟨?_, ?_, ?_, ?_⟩ <;> omega
    have ty : s.cursor_y.toNat = 29 := by omega
    rw [putchar_printable_wrap s v hc hb hx,
      scrollCheck_of_ge _ (by show 30 ≤ s.cursor_y + 1; omega)]
    refine ⟨_, rfl, ?_, ?_, ?_, rfl, rfl⟩
    · intro i hi k hk
      show memsetLastRow (memmoveUp (storeCell s.textbuf s.cursor_y.toNat 39 (v % 256))) i k = _
      rw [scrolled_cell _ i k (by omega) hk, if_neg (by omega), storeCell_apply, ty,
        if_neg (by omega)]
    · intro k hk
      show memsetLastRow (memmoveUp (storeCell s.textbuf s.cursor_y.toNat 39 (v % 256))) 28 k = _
      rw [scrolled_cell _ 28 k (by omega) hk, if_neg (by omega), storeCell_apply, ty]
      simp
    · intro k hk
      show memsetLastRow (memmoveUp (storeCell s.textbuf s.cursor_y.toNat 39 (v % 256))) 29 k = _
      rw [scrolled_cell _ 29 k (by omega) hk, if_pos rfl]

/-- Witness for C3: newline, and the character `A` at `(39,29)`, on a console
whose cell `(r,k)` holds `32 + r`. -/
theorem C3_scroll_on_row_overflow_witness :
    (∃ s', lc3_putchar { textbuf := fun r _ => 32 + r, cursor_x := 5, cursor_y := 29 } 10 = some s' ∧
        (∀ i, i < 29 → ∀ k, k < 40 → s'.textbuf i k = 32 + (i + 1)) ∧
        (∀ k, k < 40 → s'.textbuf 29 k = 0) ∧
        s'.cursor_x = 0 ∧ s'.cursor_y = 29) ∧
    (∃ s', lc3_putchar { textbuf := fun r _ => 32 + r, cursor_x := 39, cursor_y := 29 } 65 = some s' ∧
        (∀ i, i < 28 → ∀ k, k < 40 → s'.textbuf i k = 32 + (i + 1)) ∧
        (∀ k, k < 40 → s'.textbuf 28 k = if k = 39 then 65 % 256 else 32 + 29) ∧
        (∀ k, k < 40 → s'.textbuf 29 k = 0) ∧
        s'.cursor_x = 0 ∧ s'.cursor_y = 29) :=
  ⟨C3_scroll_on_row_overflow.1 { textbuf := fun r _ => 32 + r, cursor_x := 5, cursor_y := 29 } 10
      rfl (by decide),
    C3_scroll_on_row_overflow.2 { textbuf := fun r _ => 32 + r, cursor_x := 39, cursor_y := 29 } 65
      rfl rfl (by decide)⟩

/-! ### Input unifier -/

theorem find?_agree {α : Type} (p q : α → Bool) :
    ∀ (l : List α), (∀ x, x ∈ l → p x = q x) → l.find? p = l.find? q := by
  intro l
  induction l with
  | nil => intro _; rfl
  | cons a t ih =>
    intro h
    have ha : p a = q a := h a (List.mem_cons_self a t)
    have ht : t.find? p = t.find? q := ih (fun x hx => h x (List.mem_cons_of_mem a hx))
    simp only [List.find?_cons, ha, ht]

theorem keyboard_scan_none (inp : InputSnapshot) (h : ∀ i, i < 256 → inp.keyboard i = false) :
    (List.range 256).find? inp.keyboard = none := by
  rw [List.find?_range_eq_none]
  intro i hi
  simp [h i hi]

theorem keyboard_scan_first (inp : InputSnapshot) (k : Nat) (hk : k < 256)
    (hact : inp.keyboard k = true) (hmin : ∀ j, j < k → inp.keyboard j = false) :
    (List.range 256).find? inp.keyboard = some k := by
  rw [List.find?_range_eq_some]
  refine ⟨hact, List.mem_range.mpr hk, ?_⟩
  intro j hj
  simp [hmin j hj]

theorem joypad_scan_none (inp : InputSnapshot) (h : ∀ b, b ∈ buttons → inp.joypad b.1 = false) :
    buttons.find? (fun b => inp.joypad b.1) = none := by
  rw [List.find?_eq_none]
  intro b hb
  simp [h b hb]

theorem joypad_scan_only (inp : InputSnapshot) (b : Nat × Nat) (hb : b ∈ buttons)
    (h : ∀ b', b' ∈ buttons → (inp.joypad b'.1 = true ↔ b'.1 = b.1)) :
    buttons.find? (fun b' => inp.joypad b'.1) = some b := by
  have e : buttons.find? (fun b' => inp.joypad b'.1) =
      buttons.find? (fun b' => decide (b'.1 = b.1)) := by
    apply find?_agree
    intro x hx
    have hx' := h x hx
    by_cases hd : x.1 = b.1
    · have hj : inp.joypad x.1 = true := hx'.mpr hd
      show inp.joypad x.1 = decide (x.1 = b.1)
      rw [hj, decide_eq_true hd]
    · have : inp.joypad x.1 = false := by
        cases hj : inp.joypad x.1
        · rfl
        · exact absurd (hx'.mp hj) hd
      simp [hd, this]
  rw [e]
  have all : ∀ c, c ∈ buttons → buttons.find? (fun b' => decide (b'.1 = c.1)) = some c := by
    decide
  exact all b hb

theorem getchar_released (w : Bool) (inp : InputSnapshot) (h : noneActive inp) :
    lc3_getchar w inp = (0xFFFF, false) := by
  simp only [lc3_getchar, keyboard_scan_none inp h.1, joypad_scan_none inp h.2]

theorem getchar_onlyKey (w : Bool) (inp : InputSnapshot) (k : Nat) (hk : k < 256)
    (h : onlyKey inp k) :
    lc3_getchar w inp = if w then (0xFFFF, true) else (k, true) := by
  have hs : (List.range 256).find? inp.keyboard = some k :=
    keyboard_scan_first inp k hk ((h.1 k hk).mpr rfl) (fun j hj => by
      cases hj' : inp.keyboard j
      · rfl
      · have := (h.1 j (by omega)).mp hj'
        omega)
  cases w <;> simp [lc3_getchar, hs]

theorem getchar_onlyButton (w : Bool) (inp : InputSnapshot) (b : Nat × Nat) (hb : b ∈ buttons)
    (h : onlyButton inp b.1) :
    lc3_getchar w inp = if w then (0xFFFF, true) else (b.2, true) := by
  have hs := joypad_scan_only inp b hb h.2
  cases w <;> simp [lc3_getchar, keyboard_scan_none inp h.1, hs]

theorem keyboard_scan_some_of_active (inp : InputSnapshot) (i : Nat) (hi : i < 256)
    (h : inp.keyboard i = true) : ∃ k, (List.range 256).find? inp.keyboard = some k := by
  cases hf : (List.range 256).find? inp.keyboard with
  | some k => exact ⟨k, rfl⟩
  | none =>
    rw [List.find?_range_eq_none] at hf
    have := hf i hi
    simp [h] at this

theorem joypad_scan_some_of_active (inp : InputSnapshot) (b : Nat × Nat) (hb : b ∈ buttons)
    (h : inp.joypad b.1 = true) : ∃ c, buttons.find? (fun b' => inp.joypad b'.1) = some c := by
  cases hf : buttons.find? (fun b' => inp.joypad b'.1) with
  | some c => exact ⟨c, rfl⟩
  | none =>
    rw [List.find?_eq_none] at hf
    have := hf b hb
    simp [h] at this

theorem getchar_active (w : Bool) (inp : InputSnapshot) (h : anyActive inp) :
    (lc3_getchar w inp).2 = true ∧ (w = true → (lc3_getchar w inp).1 = 0xFFFF) := by
  cases hk : (List.range 256).find? inp.keyboard with
  | some k => cases w <;> simp [lc3_getchar, hk]
  | none =>
    have hkb : ∀ i, i < 256 → inp.keyboard i = false := by
      intro i hi
      rw [List.find?_range_eq_none] at hk
      simpa using hk i hi
    rcases h with ⟨i, hi, hact⟩ | ⟨b, hb, hact⟩
    · rw [hkb i hi] at hact
      exact absurd hact (by decide)
    · obtain ⟨c, hc⟩ := joypad_scan_some_of_active inp b hb hact
      cases w <;> simp [lc3_getchar, hk, hc]

theorem getchar_flag_false (w : Bool) (inp : InputSnapshot)
    (h : (lc3_getchar w inp).2 = false) : noneActive inp := by
  constructor
  · intro i hi
    cases hact : inp.keyboard i
    · rfl
    · have := (getchar_active w inp (Or.inl ⟨i, hi, hact⟩)).1
      rw [h] at this
      exact absurd this (by decide)
  · intro b hb
    cases hact : inp.joypad b.1
    · rfl
    · have := (getchar_active w inp (Or.inr ⟨b, hb, hact⟩)).1
      rw [h] at this
      exact absurd this (by decide)

theorem pollSeq_append (w : Bool) (l1 l2 : List InputSnapshot) :
    pollSeq w (l1 ++ l2) =
      ((pollSeq w l1).1 ++ (pollSeq (pollSeq w l1).2 l2).1, (pollSeq (pollSeq w l1).2 l2).2) := by
  induction l1 generalizing w with
  | nil => simp [pollSeq]
  | cons a t ih => simp [pollSeq, ih]

theorem pollSeq_held (polls : List InputSnapshot) (h : ∀ p, p ∈ polls → anyActive p) :
    pollSeq true polls = (List.replicate polls.length 0xFFFF, true) := by
  induction polls with
  | nil => simp [pollSeq]
  | cons a t ih =>
    have ha := getchar_active true a (h a (List.mem_cons_self a t))
    have ht := ih (fun p hp => h p (List.mem_cons_of_mem a hp))
    simp only [pollSeq, ha.1, ha.2 rfl, ht, List.length_cons, List.replicate_succ]

theorem anyActive_of_onlyKey (inp : InputSnapshot) (k : Nat) (hk : k < 256)
    (h : onlyKey inp k) : anyActive inp :=
  Or.inl ⟨k, hk, (h.1 k hk).mpr rfl⟩

theorem anyActive_of_onlyButton (inp : InputSnapshot) (b : Nat × Nat) (hb : b ∈ buttons)
    (h : onlyButton inp b.1) : anyActive inp :=
  Or.inr ⟨b, hb, (h.2 b hb).mpr rfl⟩

theorem pollSeq_hold_release (polls : List InputSnapshot) (rel : InputSnapshot) (code : Nat)
    (hN : 2 ≤ polls.length) (hrel : noneActive rel)
    (hact : ∀ p, p ∈ polls → anyActive p)
    (hfirst : ∀ p, p ∈ polls → lc3_getchar false p = (code, true)) :
    pollSeq false (polls ++ [rel]) =
      (code :: (List.replicate (polls.length - 1) 0xFFFF ++ [0xFFFF]), false) := by
  cases polls with
  | nil => simp at hN
  | cons a t =>
    have h1 := hfirst a (List.mem_cons_self a t)
    have h2 := pollSeq_held t (fun p hp => hact p (List.mem_cons_of_mem a hp))
    have h3 : pollSeq true [rel] = ([0xFFFF], false) := by
      simp [pollSeq, getchar_released true rel hrel]
    have h4 : pollSeq true (t ++ [rel]) = (List.replicate t.length 0xFFFF ++ [0xFFFF], false) := by
      rw [pollSeq_append, h2, h3]
    show pollSeq false (a :: (t ++ [rel])) = _
    simp only [pollSeq, h1, h4, List.length_cons, Nat.add_sub_cancel]

theorem onlyKey_keyDown (k : Nat) : onlyKey (keyDown k) k :=
  ⟨fun i _ => by simp [keyDown], fun _ _ => rfl⟩

theorem onlyButton_buttonDown (id : Nat) : onlyButton (buttonDown id) id :=
  ⟨fun _ _ => rfl, fun b _ => by simp [buttonDown]⟩

theorem noneActive_allReleased : noneActive allReleased :=
  ⟨fun _ _ => rfl, fun _ _ => rfl⟩

/-- Claim C4. One-shot debounce of a held control in `lc3_getchar`, starting
with the flag false. If one letter key (code `RETROK_a + j`, `j < 26`) or one of
the nine joypad controls of `buttons` is the only active tracked control during
`N ≥ 2` consecutive polls and a poll with nothing active follows, then poll 1
returns the control's code (the lowercase letter, resp. the table character
`a b x y u d l r` or newline), polls `2..N` return `0xFFFF`, and the poll after
release returns the value the code returns when nothing is active (again
`0xFFFF`) and leaves the flag false. -/
theorem C4_one_shot_debounce (polls : List InputSnapshot) (rel : InputSnapshot)
    (hN : 2 ≤ polls.length) (hrel : noneActive rel) :
    (∀ j, j < 26 → (∀ p, p ∈ polls → onlyKey p (RETROK_a + j)) →
      pollSeq false (polls ++ [rel]) =
        ((('a').toNat + j) :: (List.replicate (polls.length - 1) 0xFFFF ++ [0xFFFF]), false)) ∧
    (∀ b, b ∈ buttons → (∀ p, p ∈ polls → onlyButton p b.1) →
      pollSeq false (polls ++ [rel]) =
        (b.2 :: (List.replicate (polls.length - 1) 0xFFFF ++ [0xFFFF]), false)) ∧
    buttons.map Prod.snd =
      [('a').toNat, ('b').toNat, ('x').toNat, ('y').toNat, ('u').toNat, ('d').toNat,
        ('l').toNat, ('r').toNat, 10] := by
  refine ⟨?_, ?_, rfl⟩
  · intro j hj hall
    have hk : RETROK_a + j < 256 := by simp only [RETROK_a]; omega
    apply pollSeq_hold_release polls rel _ hN hrel
    · intro p hp
      exact anyActive_of_onlyKey p _ hk (hall p hp)
    · intro p hp
      rw [getchar_onlyKey false p _ hk (hall p hp)]
      rfl
  · intro b hb hall
    apply pollSeq_hold_release polls rel _ hN hrel
    · intro p hp
      exact anyActive_of_onlyButton p b hb (hall p hp)
    · intro p hp
      rw [getchar_onlyButton false p b hb (hall p hp)]
      rfl

/-- Witness for C4: the letter key `c` held for three polls, and the joypad
Start control held for two polls. -/
theorem C4_one_shot_debounce_witness :
    pollSeq false ([keyDown 99, keyDown 99, keyDown 99] ++ [allReleased]) =
        ([99, 0xFFFF, 0xFFFF, 0xFFFF], false) ∧
      pollSeq false ([buttonDown 3, buttonDown 3] ++ [allReleased]) =
        ([10, 0xFFFF, 0xFFFF], false) :=
  ⟨(C4_one_shot_debounce [keyDown 99, keyDown 99, keyDown 99] allReleased (by decide)
        noneActive_allReleased).1 2 (by decide)
      (fun p hp => by
        simp only [List.mem_cons, List.mem_singleton, List.not_mem_nil, or_false, or_self] at hp
        subst hp
        exact onlyKey_keyDown 99),
    (C4_one_shot_debounce [buttonDown 3, buttonDown 3] allReleased (by decide)
        noneActive_allReleased).2.1 (RETRO_DEVICE_ID_JOYPAD_START, 10) (by decide)
      (fun p hp => by
        simp only [List.mem_cons, List.mem_singleton, List.not_mem_nil, or_false, or_self] at hp
        subst hp
        exact onlyButton_buttonDown 3)⟩

/-- Claim C5. At most one event per hold: over any run of consecutive
`lc3_getchar` polls, from either flag value, in which every snapshot has some
tracked control active, at most one poll returns a value other than `0xFFFF`;
and a poll entered with the flag true leaves it false only if its snapshot has
no tracked control active. -/
theorem C5_at_most_one_event_per_hold :
    (∀ (w : Bool) (polls : List InputSnapshot), (∀ p, p ∈ polls → anyActive p) →
      ((pollSeq w polls).1.filter (fun x => x != 0xFFFF)).length ≤ 1) ∧
    (∀ (inp : InputSnapshot), (lc3_getchar true inp).2 = false → noneActive inp) := by
  constructor
  · intro w polls hall
    have held : ∀ l : List InputSnapshot, (∀ p, p ∈ l → anyActive p) →
        ((pollSeq true l).1.filter (fun x => x != 0xFFFF)).length = 0 := by
      intro l hl
      rw [pollSeq_held l hl]
      simp
    cases w with
    | true => rw [held polls hall]; exact Nat.zero_le 1
    | false =>
      cases polls with
      | nil => simp [pollSeq]
      | cons a t =>
        have ha := (getchar_active false a (hall a (List.mem_cons_self a t))).1
        have ht := held t (fun p hp => hall p (List.mem_cons_of_mem a hp))
        simp only [pollSeq, ha]
        rw [List.filter_cons]
        split
        · rw [List.length_cons, ht]
        · rw [ht]; exact Nat.zero_le 1
  · intro inp h
    exact getchar_flag_false true inp h

/-- Witness for C5: key `a`, then joypad B, then joypad Up, polled in a row
from the flag false. -/
theorem C5_at_most_one_event_per_hold_witness :
    ((pollSeq false [keyDown 97, buttonDown 0, buttonDown 4]).1.filter
        (fun x => x != 0xFFFF)).length ≤ 1 ∧
      noneActive allReleased :=
  ⟨C5_at_most_one_event_per_hold.1 false [keyDown 97, buttonDown 0, buttonDown 4]
      (fun p hp => by
        simp only [List.mem_cons, List.mem_singleton, List.not_mem_nil, or_false] at hp
        rcases hp with h | h | h
        · subst h; exact anyActive_of_onlyKey _ 97 (by decide) (onlyKey_keyDown 97)
        · subst h
          exact anyActive_of_onlyButton _ (RETRO_DEVICE_ID_JOYPAD_B, 98) (by decide)
            (onlyButton_buttonDown 0)
        · subst h
          exact anyActive_of_onlyButton _ (RETRO_DEVICE_ID_JOYPAD_UP, 117) (by decide)
            (onlyButton_buttonDown 4)),
    C5_at_most_one_event_per_hold.2 allReleased (by
      rw [getchar_released true allReleased noneActive_allReleased])⟩

/-! ### Frame renderer -/

theorem foldl_paint {α : Type} (step : (Nat → Nat) → α → (Nat → Nat)) (P : α → Nat → Prop)
    (h1 : ∀ fb a i, P a i → step fb a i = FOREGROUND)
    (h2 : ∀ fb a i, ¬ P a i → step fb a i = fb i) :
    ∀ (l : List α) (fb : Nat → Nat) (i : Nat),
      ((∃ a, a ∈ l ∧ P a i) → l.foldl step fb i = FOREGROUND) ∧
      ((¬ ∃ a, a ∈ l ∧ P a i) → l.foldl step fb i = fb i) := by
  intro l
  induction l with
  | nil =>
    intro fb i
    exact ⟨fun ⟨a, ha, _⟩ => absurd ha (List.not_mem_nil a), fun _ => rfl⟩
  | cons a t ih =>
    intro fb i
    have iht := ih (step fb a) i
    constructor
    · rintro ⟨b, hb, hP⟩
      rw [List.foldl_cons]
      by_cases ht : ∃ c, c ∈ t ∧ P c i
      · exact iht.1 ht
      · rw [iht.2 ht]
        rcases List.mem_cons.mp hb with rfl | hbt
        · exact h1 fb b i hP
        · exact absurd ⟨b, hbt, hP⟩ ht
    · intro hno
      rw [List.foldl_cons]
      have ht : ¬ ∃ c, c ∈ t ∧ P c i := fun ⟨c, hc, hP⟩ => hno ⟨c, List.mem_cons_of_mem a hc, hP⟩
      rw [iht.2 ht]
      exact h2 fb a i (fun hP => hno ⟨a, List.mem_cons_self a t, hP⟩)

theorem blitRow_apply (font : Nat → Nat → Nat) (c y x gy : Nat) (fb : Nat → Nat) (i : Nat) :
    ((∃ gx, gx ∈ List.range CHAR_W ∧ (glyphBit font c gx gy = true ∧ i = pixelIndex y x gy gx)) →
        blitRow font c y x gy fb i = FOREGROUND) ∧
    ((¬ ∃ gx, gx ∈ List.range CHAR_W ∧ (glyphBit font c gx gy = true ∧ i = pixelIndex y x gy gx)) →
        blitRow font c y x gy fb i = fb i) := by
  apply foldl_paint _ (fun gx i => glyphBit font c gx gy = true ∧ i = pixelIndex y x gy gx)
  · intro fb gx i h
    simp only [h.1, if_true, storePixel, h.2]
  · intro fb gx i h
    by_cases hb : glyphBit font c gx gy = true
    · have hi : ¬ i = pixelIndex y x gy gx := fun e => h ⟨hb, e⟩
      simp only [hb, if_true, storePixel, hi, if_false]
    · simp only [hb, if_false]
      rfl

theorem blitGlyph_apply (font : Nat → Nat → Nat) (c y x : Nat) (fb : Nat → Nat) (i : Nat) :
    ((∃ gy, gy ∈ List.range CHAR_H ∧ ∃ gx, gx ∈ List.range CHAR_W ∧
          (glyphBit font c gx gy = true ∧ i = pixelIndex y x gy gx)) →
        blitGlyph font c y x fb i = FOREGROUND) ∧
    ((¬ ∃ gy, gy ∈ List.range CHAR_H ∧ ∃ gx, gx ∈ List.range CHAR_W ∧
          (glyphBit font c gx gy = true ∧ i = pixelIndex y x gy gx)) →
        blitGlyph font c y x fb i = fb i) := by
  apply foldl_paint _ (fun gy i => ∃ gx, gx ∈ List.range CHAR_W ∧
    (glyphBit font c gx gy = true ∧ i = pixelIndex y x gy gx))
  · intro fb gy i h
    exact (blitRow_apply font c y x gy fb i).1 h
  · intro fb gy i h
    exact (blitRow_apply font c y x gy fb i).2 h

theorem renderTextRow_apply (font : Nat → Nat → Nat) (tb : Nat → Nat → Nat) (y : Nat)
    (fb : Nat → Nat) (i : Nat) :
    ((∃ x, x ∈ List.range FB_COLS ∧ (tb y x ≠ 0 ∧ ∃ gy, gy ∈ List.range CHAR_H ∧
          ∃ gx, gx ∈ List.range CHAR_W ∧
            (glyphBit font (tb y x) gx gy = true ∧ i = pixelIndex y x gy gx))) →
        renderTextRow font tb y fb i = FOREGROUND) ∧
    ((¬ ∃ x, x ∈ List.range FB_COLS ∧ (tb y x ≠ 0 ∧ ∃ gy, gy ∈ List.range CHAR_H ∧
          ∃ gx, gx ∈ List.range CHAR_W ∧
            (glyphBit font (tb y x) gx gy = true ∧ i = pixelIndex y x gy gx))) →
        renderTextRow font tb y fb i = fb i) := by
  apply foldl_paint _ (fun x i => tb y x ≠ 0 ∧ ∃ gy, gy ∈ List.range CHAR_H ∧
    ∃ gx, gx ∈ List.range CHAR_W ∧
      (glyphBit font (tb y x) gx gy = true ∧ i = pixelIndex y x gy gx))
  · intro fb x i h
    simp only [h.1, if_false]
    exact (blitGlyph_apply font (tb y x) y x fb i).1 h.2
  · intro fb x i h
    by_cases hc : tb y x = 0
    · simp only [hc, if_true]
    · simp only [hc, if_false]
      exact (blitGlyph_apply font (tb y x) y x fb i).2 (fun hg => h ⟨hc, hg⟩)

/-- What the render pass leaves at buffer index `i`: the foreground value if
some glyph bit is stored there, the previous content otherwise. -/
theorem renderGrid_apply (font : Nat → Nat → Nat) (tb : Nat → Nat → Nat) (fb : Nat → Nat)
    (i : Nat) :
    (paints font tb i → renderGrid font tb fb i = FOREGROUND) ∧
    (¬ paints font tb i → renderGrid font tb fb i = fb i) := by
  apply foldl_paint _ (fun y i => ∃ x, x ∈ List.range FB_COLS ∧ (tb y x ≠ 0 ∧
    ∃ gy, gy ∈ List.range CHAR_H ∧ ∃ gx, gx ∈ List.range CHAR_W ∧
      (glyphBit font (tb y x) gx gy = true ∧ i = pixelIndex y x gy gx)))
  · intro fb y i h
    exact (renderTextRow_apply font tb y fb i).1 h
  · intro fb y i h
    exact (renderTextRow_apply font tb y fb i).2 h

/-- Where the render pass does place glyphs at their pixel coordinates: if every
non-empty cell lies in a column below 32, then after clearing and rendering, a
pixel `(px, py)` of the 256x256 frame is foreground when it is the coordinate of
a set glyph bit of a non-empty cell and background otherwise. -/
theorem renderGrid_columns_below_32 (font : Nat → Nat → Nat) (tb : Nat → Nat → Nat)
    (fb : Nat → Nat) (h : ∀ y, y < 30 → ∀ x, x < 40 → tb y x ≠ 0 → x < 32)
    (px py : Nat) (hpx : px < 256) (hpy : py < 256) :
    (glyphCoordinate font tb px py →
        pixelAt (renderGrid font tb (clearFramebuffer fb)) px py = FOREGROUND) ∧
    (¬ glyphCoordinate font tb px py →
        pixelAt (renderGrid font tb (clearFramebuffer fb)) px py = 0) := by
  constructor
  · rintro ⟨y, hy, x, hx, hne, gy, hgy, gx, hgx, hbit, hx', hy'⟩
    apply (renderGrid_apply font tb (clearFramebuffer fb) _).1
    refine ⟨y, List.mem_range.mpr hy, x, List.mem_range.mpr hx, hne, gy, List.mem_range.mpr hgy,
      gx, List.mem_range.mpr hgx, hbit, ?_⟩
    simp only [pixelIndex, CHAR_H, CHAR_W, VIDEO_WIDTH, hx', hy']
  · intro hno
    have hnp : ¬ paints font tb (py * VIDEO_WIDTH + px) := by
      rintro ⟨y, hy, x, hx, hne, gy, hgy, gx, hgx, hbit, hi⟩
      have hy' : y < 30 := List.mem_range.mp hy
      have hx' : x < 40 := List.mem_range.mp hx
      have hgy' : gy < 8 := List.mem_range.mp hgy
      have hgx' : gx < 8 := List.mem_range.mp hgx
      have hx32 := h y hy' x hx' hne
      simp only [pixelIndex, CHAR_H, CHAR_W, VIDEO_WIDTH] at hi
      exact hno ⟨y, hy', x, hx', hne, gy, hgy', gx, hgx', hbit, by omega, by omega⟩
    have hlt : py * VIDEO_WIDTH + px < VIDEO_WIDTH * VIDEO_HEIGHT := by
      simp only [VIDEO_WIDTH, VIDEO_HEIGHT]
      omega
    show renderGrid font tb (clearFramebuffer fb) (py * VIDEO_WIDTH + px) = 0
    rw [(renderGrid_apply font tb (clearFramebuffer fb) _).2 hnp]
    simp only [clearFramebuffer, hlt, if_true]

/-- Claim C6 (evaluation at the failing input). The grid holds `A` in cell
`(0,32)` and is empty elsewhere. Bit 2 of row 0 of the glyph is set, and the
store for it goes to index `0*256 + (32*8+2) = 258`, which is the pixel at
column 2 of pixel row 1. That pixel is foreground after the render pass,
although `(2,1)` is not the coordinate of a set glyph bit of any non-empty cell
(it lies in the block of the empty cell `(0,0)`). -/
theorem C6_glyph_in_column_32_wraps_to_next_pixel_row (fb : Nat → Nat) :
    pixelAt (renderGrid sampleFont (singleCell 0 32 65) (clearFramebuffer fb)) 2 1 = FOREGROUND ∧
      ¬ glyphCoordinate sampleFont (singleCell 0 32 65) 2 1 ∧
      glyphCoordinate sampleFont (singleCell 0 32 65) 258 0 := by
  refine ⟨?_, ?_, ?_⟩
  · apply (renderGrid_apply sampleFont (singleCell 0 32 65) (clearFramebuffer fb) _).1
    refine ⟨0, by decide, 32, by decide, by decide, 0, by decide, 2, by decide, by decide, ?_⟩
    decide
  · rintro ⟨y, hy, x, hx, hne, gy, hgy, gx, hgx, _, hpx, hpy⟩
    have hx0 : x = 0 := by omega
    have hy0 : y = 0 := by omega
    subst hx0
    subst hy0
    exact hne (by decide)
  · exact ⟨0, by decide, 32, by decide, by decide, 0, by decide, 2, by decide, by decide,
      by decide, by decide⟩

/-! ### Execution pacer -/

theorem stepResult_succ {σ : Type} (api : VMApi σ) (j : Nat) (x : σ × Console × Bool) :
    stepResult api (j + 1) x =
      stepResult api j
        ((api.vm_step x.1 x.2.1 x.2.2).vm, (api.vm_step x.1 x.2.1 x.2.2).console,
          (api.vm_step x.1 x.2.1 x.2.2).waiting_for_release) := rfl

theorem stepLoop_all_success {σ : Type} (api : VMApi σ) :
    ∀ (n : Nat) (p : PacerState σ),
      (∀ j, j < n → stepResult api j (p.vm, p.console, p.waiting_for_release) =
          vm_run_result.VM_RUN_SUCCESS) →
      (stepLoop api n p).steps = p.steps + n ∧ (stepLoop api n p).vm_halted = p.vm_halted := by
  intro n
  induction n with
  | zero => intro p _; exact ⟨rfl, rfl⟩
  | succ n ih =>
    intro p h
    have h0 : (api.vm_step p.vm p.console p.waiting_for_release).result =
        vm_run_result.VM_RUN_SUCCESS := h 0 (Nat.succ_pos n)
    have hrest := ih
      { vm := (api.vm_step p.vm p.console p.waiting_for_release).vm
        console := (api.vm_step p.vm p.console p.waiting_for_release).console
        waiting_for_release := (api.vm_step p.vm p.console p.waiting_for_release).waiting_for_release
        vm_halted := p.vm_halted
        steps := p.steps + 1 }
      (fun j hj => by
        have := h (j + 1) (Nat.succ_lt_succ hj)
        rw [stepResult_succ] at this
        exact this)
    simp only [stepLoop, h0, ne_eq, not_true_eq_false, if_false]
    refine ⟨?_, hrest.2⟩
    rw [hrest.1]
    show p.steps + 1 + n = p.steps + (n + 1)
    omega

theorem stepLoop_first_failure {σ : Type} (api : VMApi σ) :
    ∀ (n k : Nat) (p : PacerState σ), k < n →
      (∀ j, j < k → stepResult api j (p.vm, p.console, p.waiting_for_release) =
          vm_run_result.VM_RUN_SUCCESS) →
      stepResult api k (p.vm, p.console, p.waiting_for_release) ≠ vm_run_result.VM_RUN_SUCCESS →
      (stepLoop api n p).steps = p.steps + (k + 1) ∧ (stepLoop api n p).vm_halted = true := by
  intro n
  induction n with
  | zero => intro k p hk; exact absurd hk (Nat.not_lt_zero k)
  | succ n ih =>
    intro k p hk hok hfail
    cases k with
    | zero =>
      have h0 : (api.vm_step p.vm p.console p.waiting_for_release).result ≠
          vm_run_result.VM_RUN_SUCCESS := hfail
      simp only [stepLoop, h0, ne_eq, not_false_eq_true, if_true, and_self]
    | succ k =>
      have h0 : (api.vm_step p.vm p.console p.waiting_for_release).result =
          vm_run_result.VM_RUN_SUCCESS := hok 0 (Nat.succ_pos k)
      have hrest := ih k
        { vm := (api.vm_step p.vm p.console p.waiting_for_release).vm
          console := (api.vm_step p.vm p.console p.waiting_for_release).console
          waiting_for_release :=
            (api.vm_step p.vm p.console p.waiting_for_release).waiting_for_release
          vm_halted := p.vm_halted
          steps := p.steps + 1 }
        (Nat.lt_of_succ_lt_succ hk)
        (fun j hj => by
          have := hok (j + 1) (Nat.succ_lt_succ hj)
          rw [stepResult_succ] at this
          exact this)
        (by
          rw [stepResult_succ] at hfail
          exact hfail)
      simp only [stepLoop, h0, ne_eq, not_true_eq_false, if_false]
      refine ⟨?_, hrest.2⟩
      rw [hrest.1]
      show p.steps + 1 + (k + 1) = p.steps + (k + 1 + 1)
      omega

theorem retro_run_running {σ : Type} (api : VMApi σ) (font : Nat → Nat → Nat) (s : Core σ)
    (v : σ) (hvm : s.vm = some v) (hh : s.vm_halted = false) :
    (retro_run api font s).steps =
        (stepLoop api 1000
          { vm := v, console := s.console, waiting_for_release := s.waiting_for_release,
            vm_halted := false, steps := 0 }).steps ∧
      (retro_run api font s).state.vm_halted =
        (stepLoop api 1000
          { vm := v, console := s.console, waiting_for_release := s.waiting_for_release,
            vm_halted := false, steps := 0 }).vm_halted := by
  simp [retro_run, hvm, hh]

theorem retro_run_running_frame {σ : Type} (api : VMApi σ) (font : Nat → Nat → Nat)
    (s : Core σ) (v : σ) (hvm : s.vm = some v) (hh : s.vm_halted = false) :
    (retro_run api font s).state.console =
        (stepLoop api 1000
          { vm := v, console := s.console, waiting_for_release := s.waiting_for_release,
            vm_halted := false, steps := 0 }).console ∧
      (retro_run api font s).video =
        renderGrid font (retro_run api font s).state.console.textbuf
          (clearFramebuffer s.framebuffer) := by
  simp [retro_run, hvm, hh]

theorem retro_run_halted {σ : Type} (api : VMApi σ) (font : Nat → Nat → Nat) (s : Core σ)
    (h : s.vm = none ∨ s.vm_halted = true) :
    retro_run api font s =
      { state := { s with framebuffer := clearFramebuffer s.framebuffer }
        steps := 0
        video := clearFramebuffer s.framebuffer } := by
  cases hv : s.vm with
  | none => simp [retro_run, hv]
  | some v =>
    have hh : s.vm_halted = true := by
      rcases h with h | h
      · rw [hv] at h; exact absurd h (by simp)
      · exact h
    simp [retro_run, hv, hh]

theorem runFrames_halted {σ : Type} (api : VMApi σ) (font : Nat → Nat → Nat) :
    ∀ (n : Nat) (s : Core σ), s.vm_halted = true →
      (runFrames api font n s).vm_halted = true ∧
        (runFrames api font n s).console = s.console := by
  intro n
  induction n with
  | zero => intro s h; exact ⟨h, rfl⟩
  | succ n ih =>
    intro s h
    have e := retro_run_halted api font s (Or.inr h)
    have := ih (retro_run api font s).state (by rw [e]; exact h)
    refine ⟨this.1, ?_⟩
    show (runFrames api font n (retro_run api font s).state).console = s.console
    rw [this.2, e]

/-- Claim C7. Halt latch of the step loop of `retro_run`. With a VM active and
`vm_halted = false`, if the `k`-th step of the call (`1 ≤ k ≤ 1000`) is the
first to return a non-success result, the call makes exactly `k` steps and sets
`vm_halted`; and after any number `n` of further `retro_run` calls, the next
`retro_run` call makes zero steps, leaves the console (grid and cursor) as the
first call left it, and `vm_halted` is still set. -/
theorem C7_halt_latch {σ : Type} (api : VMApi σ) (font : Nat → Nat → Nat) (s : Core σ)
    (v : σ) (k : Nat) (hvm : s.vm = some v) (hh : s.vm_halted = false)
    (hk1 : 1 ≤ k) (hk2 : k ≤ 1000)
    (hok : ∀ j, j + 1 < k →
      stepResult api j (v, s.console, s.waiting_for_release) = vm_run_result.VM_RUN_SUCCESS)
    (hfail :
      stepResult api (k - 1) (v, s.console, s.waiting_for_release) ≠
        vm_run_result.VM_RUN_SUCCESS) :
    (retro_run api font s).steps = k ∧
      (retro_run api font s).state.vm_halted = true ∧
      ∀ n,
        (retro_run api font (runFrames api font n (retro_run api font s).state)).steps = 0 ∧
        (retro_run api font (runFrames api font n (retro_run api font s).state)).state.console =
          (retro_run api font s).state.console ∧
        (retro_run api font (runFrames api font n (retro_run api font s).state)).state.vm_halted =
          true := by
  have hloop := stepLoop_first_failure api 1000 (k - 1)
    { vm := v, console := s.console, waiting_for_release := s.waiting_for_release,
      vm_halted := false, steps := 0 }
    (by omega) (fun j hj => hok j (by omega)) hfail
  have hrun := retro_run_running api font s v hvm hh
  have hsteps : (retro_run api font s).steps = k := by
    rw [hrun.1, hloop.1]
    show 0 + (k - 1 + 1) = k
    omega
  have hhalt : (retro_run api font s).state.vm_halted = true := by
    rw [hrun.2, hloop.2]
  refine ⟨hsteps, hhalt, ?_⟩
  intro n
  have hfr := runFrames_halted api font n (retro_run api font s).state hhalt
  have e := retro_run_halted api font (runFrames api font n (retro_run api font s).state)
    (Or.inr hfr.1)
  rw [e]
  exact ⟨rfl, hfr.2, hfr.1⟩

/-- Witness for C7: the counting VM with limit 2 fails on its third step. -/
theorem C7_halt_latch_witness :
    (retro_run (countingVM 2) sampleFont
        { console := consoleA, waiting_for_release := false, vm := some 0, vm_halted := false,
          framebuffer := fun _ => 0 }).steps = 3 ∧
      (retro_run (countingVM 2) sampleFont
        { console := consoleA, waiting_for_release := false, vm := some 0, vm_halted := false,
          framebuffer := fun _ => 0 }).state.vm_halted = true :=
  have h := C7_halt_latch (countingVM 2) sampleFont
    { console := consoleA, waiting_for_release := false, vm := some 0, vm_halted := false,
      framebuffer := fun _ => 0 } 0 3 rfl rfl (by decide) (by decide)
    (fun j hj => by
      have hj' : j = 0 ∨ j = 1 := by omega
      rcases hj' with rfl | rfl <;> rfl)
    (by decide)
  ⟨h.1, h.2.1⟩

/-- Claim C8. Fixed step budget: with a VM active and `vm_halted = false`, if
each of the 1000 steps of the call returns success, `retro_run` makes exactly
1000 `vm_step` calls and leaves `vm_halted = false`. -/
theorem C8_fixed_step_budget {σ : Type} (api : VMApi σ) (font : Nat → Nat → Nat) (s : Core σ)
    (v : σ) (hvm : s.vm = some v) (hh : s.vm_halted = false)
    (hok : ∀ j, j < 1000 →
      stepResult api j (v, s.console, s.waiting_for_release) = vm_run_result.VM_RUN_SUCCESS) :
    (retro_run api font s).steps = 1000 ∧ (retro_run api font s).state.vm_halted = false := by
  have hloop := stepLoop_all_success api 1000
    { vm := v, console := s.console, waiting_for_release := s.waiting_for_release,
      vm_halted := false, steps := 0 } hok
  have hrun := retro_run_running api font s v hvm hh
  exact ⟨by rw [hrun.1, hloop.1], by rw [hrun.2, hloop.2]⟩

/-- Witness for C8: the VM whose every step succeeds. -/
theorem C8_fixed_step_budget_witness :
    (retro_run idleVM sampleFont
        { console := consoleA, waiting_for_release := false, vm := some (), vm_halted := false,
          framebuffer := fun _ => 0 }).steps = 1000 ∧
      (retro_run idleVM sampleFont
        { console := consoleA, waiting_for_release := false, vm := some (), vm_halted := false,
          framebuffer := fun _ => 0 }).state.vm_halted = false :=
  C8_fixed_step_budget idleVM sampleFont
    { console := consoleA, waiting_for_release := false, vm := some (), vm_halted := false,
      framebuffer := fun _ => 0 } () rfl rfl (fun _ _ => rfl)

theorem stepLoop_idleVM (n : Nat) (p : PacerState Unit) :
    (stepLoop idleVM n p).console = p.console := by
  induction n generalizing p with
  | zero => rfl
  | succ n ih => exact ih _

theorem paints_consoleA_pixel : paints sampleFont consoleA.textbuf (0 * VIDEO_WIDTH + 2) :=
  ⟨0, by decide, 0, by decide, by decide, 0, by decide, 2, by decide, by decide, by decide⟩

/-- Claim C9, refuted as stated. The console holds `A` in cell `(0,0)` and the
pixel buffer is all zero on entry. With no VM, and with a VM and `vm_halted`
set, the buffer `retro_run` passes to `video_cb` has background at pixel
`(2,0)`, while the render pass for the same console, and the frame of a running
VM that leaves the console alone, have foreground there. -/
theorem C9_idle_or_halted_frame_is_not_the_rendering :
    (pixelAt (retro_run idleVM sampleFont (idleCore (fun _ => 0))).video 2 0 = 0 ∧
      pixelAt (retro_run idleVM sampleFont (haltedCore (fun _ => 0))).video 2 0 = 0) ∧
    pixelAt (renderGrid sampleFont consoleA.textbuf (clearFramebuffer (fun _ => 0))) 2 0 =
      FOREGROUND ∧
    ((retro_run idleVM sampleFont (runningCore (fun _ => 0))).state.console = consoleA ∧
      pixelAt (retro_run idleVM sampleFont (runningCore (fun _ => 0))).video 2 0 =
        FOREGROUND) := by
  have e1 := retro_run_halted idleVM sampleFont (idleCore (fun _ => 0)) (Or.inl rfl)
  have e2 := retro_run_halted idleVM sampleFont (haltedCore (fun _ => 0)) (Or.inr rfl)
  have hr : pixelAt (renderGrid sampleFont consoleA.textbuf (clearFramebuffer (fun _ => 0))) 2 0 =
      FOREGROUND :=
    (renderGrid_apply sampleFont consoleA.textbuf (clearFramebuffer (fun _ => 0)) _).1
      paints_consoleA_pixel
  have hf := retro_run_running_frame idleVM sampleFont (runningCore (fun _ => 0)) () rfl rfl
  have hc : (retro_run idleVM sampleFont (runningCore (fun _ => 0))).state.console = consoleA := by
    rw [hf.1, stepLoop_idleVM]
    rfl
  refine ⟨⟨?_, ?_⟩, hr, hc, ?_⟩
  · rw [e1]
    simp [pixelAt, clearFramebuffer, VIDEO_WIDTH, VIDEO_HEIGHT]
  · rw [e2]
    simp [pixelAt, clearFramebuffer, VIDEO_WIDTH, VIDEO_HEIGHT]
  · rw [hf.2, hc]
    exact hr

/-- Claim C9, amended. When `retro_run` is called with no VM active or with
`vm_halted` set, it makes no `vm_step` call and leaves the console (grid and
cursor) unchanged; with no VM active the buffer it passes to `video_cb` is
background in every pixel of the 256x256 frame, whatever the console holds. -/
theorem C9_idle_or_halted_no_step_console_kept {σ : Type} (api : VMApi σ)
    (font : Nat → Nat → Nat) (s : Core σ) (h : s.vm = none ∨ s.vm_halted = true) :
    (retro_run api font s).steps = 0 ∧
      (retro_run api font s).state.console = s.console ∧
      (s.vm = none → ∀ px py, px < 256 → py < 256 →
        pixelAt (retro_run api font s).video px py = 0) := by
  rw [retro_run_halted api font s h]
  refine ⟨rfl, rfl, ?_⟩
  intro _ px py hpx hpy
  have hlt : py * VIDEO_WIDTH + px < VIDEO_WIDTH * VIDEO_HEIGHT := by
    simp only [VIDEO_WIDTH, VIDEO_HEIGHT]
    omega
  simp only [pixelAt, clearFramebuffer, hlt, if_true]

/-- Witness for the amended C9: no VM, the console holding `A`. -/
theorem C9_idle_or_halted_no_step_console_kept_witness :
    (retro_run idleVM sampleFont (idleCore (fun _ => 7))).steps = 0 ∧
      (retro_run idleVM sampleFont (idleCore (fun _ => 7))).state.console =
        (idleCore (fun _ => 7)).console ∧
      ((idleCore (fun _ => 7)).vm = none → ∀ px py, px < 256 → py < 256 →
        pixelAt (retro_run idleVM sampleFont (idleCore (fun _ => 7))).video px py = 0) :=
  C9_idle_or_halted_no_step_console_kept idleVM sampleFont (idleCore (fun _ => 7)) (Or.inl rfl)

/-- What `retro_load_game` establishes when it returns `true`: the console is the
cleared console, a VM is active and `vm_halted` is false. -/
theorem retro_load_game_success {σ : Type} (api : VMApi σ) (pixel_format_ok : Bool)
    (info : Option retro_game_info) (s : Core σ)
    (h : (retro_load_game api pixel_format_ok info s).2 = true) :
    (retro_load_game api pixel_format_ok info s).1.console = Console.cleared ∧
      (retro_load_game api pixel_format_ok info s).1.vm_halted = false ∧
      (retro_load_game api pixel_format_ok info s).1.vm.isSome = true := by
  unfold retro_load_game at h ⊢
  cases info with
  | none => simp at h
  | some i =>
    cases hp : i.path with
    | none => simp [hp] at h
    | some path =>
      simp only [hp] at h ⊢
      by_cases hl : (api.vm_load_file (api.vm_load_os api.vm_create) path).2 = false
      · simp [hl] at h
      · by_cases hf : pixel_format_ok = false
        · simp [hl, hf] at h
        · simp [hl, hf]

/-- Claim C10 (evaluation at the failing input). `retro_reset` with a VM active
recreates the VM and clears `vm_halted`, but returns the console untouched: for
the console that holds `A` in cell `(0,0)` with the cursor at `(1,0)`, cell
`(0,0)` still holds 65 and the cursor column is still 1 after the reset. -/
theorem C10_reset_leaves_console_untouched {σ : Type} (api : VMApi σ) (v : σ) (con : Console)
    (w h : Bool) (fb : Nat → Nat) :
    ((retro_reset api
        { console := con, waiting_for_release := w, vm := some v, vm_halted := h,
          framebuffer := fb }).console = con ∧
      (retro_reset api
        { console := con, waiting_for_release := w, vm := some v, vm_halted := h,
          framebuffer := fb }).vm_halted = false ∧
      (retro_reset api
        { console := con, waiting_for_release := w, vm := some v, vm_halted := h,
          framebuffer := fb }).vm = some (api.vm_load_os api.vm_create)) ∧
    ((retro_reset api
        { console := consoleA, waiting_for_release := w, vm := some v, vm_halted := h,
          framebuffer := fb }).console.textbuf 0 0 = 65 ∧
      (retro_reset api
        { console := consoleA, waiting_for_release := w, vm := some v, vm_halted := h,
          framebuffer := fb }).console.cursor_x = 1) :=
  ⟨⟨rfl, rfl, rfl⟩, ⟨rfl, rfl⟩⟩

/-! ### Lifecycle: failed loads -/

/-- The three failure causes that do leave no VM behind: from the no-VM state, a
`retro_load_game` that returns `false` although the host accepts the pixel
format (null `info`, null path, or program load failure) ends with `vm == NULL`. -/
theorem retro_load_game_failure_without_vm {σ : Type} (api : VMApi σ)
    (info : Option retro_game_info) (s : Core σ) (hvm : s.vm = none)
    (h : (retro_load_game api true info s).2 = false) :
    (retro_load_game api true info s).1.vm = none := by
  unfold retro_load_game at h ⊢
  cases info with
  | none => exact hvm
  | some i =>
    cases hp : i.path with
    | none => simpa [hp] using hvm
    | some path =>
      simp only [hp] at h ⊢
      by_cases hl : (api.vm_load_file (api.vm_load_os api.vm_create) path).2 = false
      · simp [hl]
      · simp [hl] at h

/-- Claim C11 (evaluation at the failing input). From the no-VM state, a load
whose program image loads but whose pixel format the host rejects returns
`false` and yet leaves a VM active with `vm_halted` false; the following
`retro_run` makes 1000 VM steps. -/
theorem C11_pixel_format_rejection_leaves_vm_running (path : String) (fb : Nat → Nat) :
    (idleCore fb).vm = none ∧
    (retro_load_game idleVM false (some { path := some path }) (idleCore fb)).2 = false ∧
    (retro_load_game idleVM false (some { path := some path }) (idleCore fb)).1.vm = some () ∧
    (retro_load_game idleVM false (some { path := some path }) (idleCore fb)).1.vm_halted =
      false ∧
    (retro_run idleVM sampleFont
      (retro_load_game idleVM false (some { path := some path }) (idleCore fb)).1).steps =
      1000 := by
  refine ⟨rfl, rfl, rfl, rfl, ?_⟩
  have hrun := retro_run_running idleVM sampleFont
    (retro_load_game idleVM false (some { path := some path }) (idleCore fb)).1 () rfl rfl
  have hloop := stepLoop_all_success idleVM 1000
    { vm := (),
      console :=
        (retro_load_game idleVM false (some { path := some path }) (idleCore fb)).1.console,
      waiting_for_release :=
        (retro_load_game idleVM false (some { path := some path })
          (idleCore fb)).1.waiting_for_release,
      vm_halted := false, steps := 0 }
    (fun _ _ => rfl)
  rw [hrun.1, hloop.1]

/-! ### Input unifier: sentinel, keyboard codes, precedence -/

/-- Claim C12, refuted as stated. With the flag true and key `a` still held,
`lc3_getchar` returns `0xFFFF`; with nothing active it returns `0xFFFF` as well,
from either flag value. -/
theorem C12_still_held_equals_no_event :
    (lc3_getchar true (keyDown 97)).1 = 0xFFFF ∧
      (lc3_getchar true allReleased).1 = 0xFFFF ∧
      (lc3_getchar false allReleased).1 = 0xFFFF ∧
      (lc3_getchar true (keyDown 97)).1 = (lc3_getchar true allReleased).1 := by
  have h1 : lc3_getchar true (keyDown 97) = (0xFFFF, true) := by
    rw [getchar_onlyKey true (keyDown 97) 97 (by decide) (onlyKey_keyDown 97)]
    rfl
  have h2 := getchar_released true allReleased noneActive_allReleased
  have h3 := getchar_released false allReleased noneActive_allReleased
  rw [h1, h2, h3]
  exact ⟨rfl, rfl, rfl, rfl⟩

/-- Claim C12, amended. The value `lc3_getchar` returns when the flag is true
and a tracked control is still active is `0xFFFF`, and the value it returns when
no tracked control is active is the same `0xFFFF`; the two calls differ only in
the flag they leave: true while a control is held, false once nothing is
active. -/
theorem C12_one_value_for_held_and_for_silence (held silent : InputSnapshot) (w : Bool)
    (hheld : anyActive held) (hsilent : noneActive silent) :
    (lc3_getchar true held).1 = 0xFFFF ∧ (lc3_getchar w silent).1 = 0xFFFF ∧
      (lc3_getchar true held).2 = true ∧ (lc3_getchar w silent).2 = false := by
  have h1 := getchar_active true held hheld
  have h2 := getchar_released w silent hsilent
  rw [h2]
  exact ⟨h1.2 rfl, rfl, h1.1, rfl⟩

/-- Witness for the amended C12: key `a` held, then everything released. -/
theorem C12_one_value_for_held_and_for_silence_witness :
    (lc3_getchar true (keyDown 97)).1 = 0xFFFF ∧ (lc3_getchar false allReleased).1 = 0xFFFF ∧
      (lc3_getchar true (keyDown 97)).2 = true ∧ (lc3_getchar false allReleased).2 = false :=
  C12_one_value_for_held_and_for_silence (keyDown 97) allReleased false
    (anyActive_of_onlyKey _ 97 (by decide) (onlyKey_keyDown 97)) noneActive_allReleased

theorem letter_scan_none (inp : InputSnapshot)
    (h : ∀ i, 97 ≤ i → i < 123 → inp.keyboard i = false) :
    (List.range' RETROK_a (RETROK_z + 1 - RETROK_a)).find? inp.keyboard = none := by
  show (List.range' 97 26).find? inp.keyboard = none
  rw [List.find?_range'_eq_none]
  intro i h1 h2
  simp [h i h1 (by omega)]

theorem letter_scan_only (inp : InputSnapshot) (k : Nat) (hk : k < 26)
    (h : onlyKey inp (RETROK_a + k)) :
    (List.range' RETROK_a (RETROK_z + 1 - RETROK_a)).find? inp.keyboard =
      some (RETROK_a + k) := by
  show (List.range' 97 26).find? inp.keyboard = some (97 + k)
  have hact : inp.keyboard (97 + k) = true := (h.1 (97 + k) (by omega)).mpr rfl
  rw [List.find?_range'_eq_some]
  refine ⟨hact, ?_, ?_⟩
  · rw [List.mem_range'_1]
    omega
  · intro j hj1 hj2
    cases hj : inp.keyboard j
    · rfl
    · have := (h.1 j (by omega)).mp hj
      simp only [RETROK_a] at this
      omega

theorem keyboard_false_of_onlyKey (inp : InputSnapshot) (k i : Nat) (hi : i < 256)
    (h : onlyKey inp k) (hne : i ≠ k) : inp.keyboard i = false := by
  cases hj : inp.keyboard i
  · rfl
  · exact absurd ((h.1 i hi).mp hj) hne

/-- Claim C13, refuted as stated. With Enter (`RETROK_RETURN = 13`) the only
active control and the flag false, `lc3_getchar` returns 13, the carriage
return, while `get_key_from_keyboard` returns newline (10) on the same
snapshot. -/
theorem C13_enter_is_reported_as_13_not_newline :
    lc3_getchar false (keyDown RETROK_RETURN) = (13, true) ∧
      (lc3_getchar false (keyDown RETROK_RETURN)).1 ≠ 10 ∧
      get_key_from_keyboard (keyDown RETROK_RETURN) = 10 := by
  have h1 : lc3_getchar false (keyDown RETROK_RETURN) = (13, true) := by
    rw [getchar_onlyKey false (keyDown RETROK_RETURN) RETROK_RETURN (by decide)
      (onlyKey_keyDown RETROK_RETURN)]
    rfl
  refine ⟨h1, by rw [h1]; decide, ?_⟩
  have hs := letter_scan_none (keyDown RETROK_RETURN) (fun i h1 _ => by
    simp only [keyDown, RETROK_RETURN, beq_eq_false_iff_ne, ne_eq]
    omega)
  simp only [get_key_from_keyboard, hs]
  rfl

/-- Claim C13, amended. Called with the flag false, `lc3_getchar` returns the raw
libretro key code of the only active key: 13 (carriage return) when Enter is
the only active control, 8 (backspace) when Backspace is, and the lowercase
letter `a + k` when the `k`-th letter key is. It agrees with
`get_key_from_keyboard` on the Backspace and letter snapshots; on the Enter
snapshot `get_key_from_keyboard` gives newline (10). -/
theorem C13_keyboard_codes_are_raw (inp : InputSnapshot) :
    (onlyKey inp RETROK_RETURN →
      lc3_getchar false inp = (13, true) ∧ get_key_from_keyboard inp = 10) ∧
    (onlyKey inp RETROK_BACKSPACE →
      lc3_getchar false inp = (8, true) ∧ get_key_from_keyboard inp = 8) ∧
    (∀ k, k < 26 → onlyKey inp (RETROK_a + k) →
      lc3_getchar false inp = (('a').toNat + k, true) ∧
        get_key_from_keyboard inp = ('a').toNat + k) := by
  refine ⟨?_, ?_, ?_⟩
  · intro h
    have hs := letter_scan_none inp (fun i h1 h2 =>
      keyboard_false_of_onlyKey inp RETROK_RETURN i (by omega) h (by
        simp only [RETROK_RETURN]; omega))
    have hret : inp.keyboard RETROK_RETURN = true := (h.1 RETROK_RETURN (by decide)).mpr rfl
    refine ⟨?_, ?_⟩
    · rw [getchar_onlyKey false inp RETROK_RETURN (by decide) h]
      rfl
    · simp only [get_key_from_keyboard, hs, hret, if_true]
  · intro h
    have hs := letter_scan_none inp (fun i h1 h2 =>
      keyboard_false_of_onlyKey inp RETROK_BACKSPACE i (by omega) h (by
        simp only [RETROK_BACKSPACE]; omega))
    have hret : inp.keyboard RETROK_RETURN = false :=
      keyboard_false_of_onlyKey inp RETROK_BACKSPACE RETROK_RETURN (by decide) h (by decide)
    have hbs : inp.keyboard RETROK_BACKSPACE = true :=
      (h.1 RETROK_BACKSPACE (by decide)).mpr rfl
    refine ⟨?_, ?_⟩
    · rw [getchar_onlyKey false inp RETROK_BACKSPACE (by decide) h]
      rfl
    · simp [get_key_from_keyboard, hs, hret, hbs]
  · intro k hk h
    have hlt : RETROK_a + k < 256 := by simp only [RETROK_a]; omega
    refine ⟨?_, ?_⟩
    · rw [getchar_onlyKey false inp (RETROK_a + k) hlt h]
      rfl
    · simp only [get_key_from_keyboard, letter_scan_only inp k hk h]
      simp [RETROK_a]

/-- Witness for the amended C13 on the Enter, Backspace and `c` snapshots. -/
theorem C13_keyboard_codes_are_raw_witness :
    (lc3_getchar false (keyDown 13) = (13, true) ∧ get_key_from_keyboard (keyDown 13) = 10) ∧
    (lc3_getchar false (keyDown 8) = (8, true) ∧ get_key_from_keyboard (keyDown 8) = 8) ∧
    (lc3_getchar false (keyDown 99) = (99, true) ∧ get_key_from_keyboard (keyDown 99) = 99) :=
  ⟨(C13_keyboard_codes_are_raw (keyDown 13)).1 (onlyKey_keyDown 13),
    (C13_keyboard_codes_are_raw (keyDown 8)).2.1 (onlyKey_keyDown 8),
    (C13_keyboard_codes_are_raw (keyDown 99)).2.2 2 (by decide) (onlyKey_keyDown 99)⟩

theorem joypad_scan_first (inp : InputSnapshot) (pre post : List (Nat × Nat)) (b : Nat × Nat)
    (hsplit : buttons = pre ++ b :: post) (hact : inp.joypad b.1 = true)
    (hpre : ∀ p, p ∈ pre → inp.joypad p.1 = false) :
    buttons.find? (fun b' => inp.joypad b'.1) = some b := by
  rw [List.find?_eq_some]
  refine ⟨hact, pre, post, hsplit, ?_⟩
  intro a ha
  simp [hpre a ha]

/-- Claim C14. Input precedence in `lc3_getchar`, polled with the flag false.
If some keyboard code below 256 is active, the result is the smallest active
keyboard code, whatever the joypad state. Otherwise, if a joypad control of the
table is active, the result is the character of the first active one in table
order, which is A, B, X, Y, Up, Down, Left, Right, Start. In particular a
letter key that is the only active key is reported as its letter whatever the
joypad state. -/
theorem C14_input_precedence (inp : InputSnapshot) :
    (∀ k, k < 256 → inp.keyboard k = true → (∀ j, j < k → inp.keyboard j = false) →
      lc3_getchar false inp = (k, true)) ∧
    ((∀ i, i < 256 → inp.keyboard i = false) →
      ∀ (pre post : List (Nat × Nat)) (b : Nat × Nat), buttons = pre ++ b :: post →
        inp.joypad b.1 = true → (∀ p, p ∈ pre → inp.joypad p.1 = false) →
        lc3_getchar false inp = (b.2, true)) ∧
    (∀ j, j < 26 → (∀ i, i < 256 → (inp.keyboard i = true ↔ i = RETROK_a + j)) →
      lc3_getchar false inp = (('a').toNat + j, true)) ∧
    buttons.map Prod.fst =
      [RETRO_DEVICE_ID_JOYPAD_A, RETRO_DEVICE_ID_JOYPAD_B, RETRO_DEVICE_ID_JOYPAD_X,
        RETRO_DEVICE_ID_JOYPAD_Y, RETRO_DEVICE_ID_JOYPAD_UP, RETRO_DEVICE_ID_JOYPAD_DOWN,
        RETRO_DEVICE_ID_JOYPAD_LEFT, RETRO_DEVICE_ID_JOYPAD_RIGHT,
        RETRO_DEVICE_ID_JOYPAD_START] := by
  have key : ∀ k, k < 256 → inp.keyboard k = true → (∀ j, j < k → inp.keyboard j = false) →
      lc3_getchar false inp = (k, true) := by
    intro k hk hact hmin
    simp [lc3_getchar, keyboard_scan_first inp k hk hact hmin]
  refine ⟨key, ?_, ?_, rfl⟩
  · intro hkb pre post b hsplit hact hpre
    simp [lc3_getchar, keyboard_scan_none inp hkb, joypad_scan_first inp pre post b hsplit hact hpre]
  · intro j hj honly
    have hlt : RETROK_a + j < 256 := by simp only [RETROK_a]; omega
    rw [key (RETROK_a + j) hlt ((honly _ hlt).mpr rfl) (fun i hi => by
      cases hc : inp.keyboard i
      · rfl
      · have := (honly i (by omega)).mp hc
        omega)]
    rfl

/-- Witness for C14: key `c` with every joypad control active gives `c`; the
joypad controls X and Down active with no key give `x`. -/
theorem C14_input_precedence_witness :
    lc3_getchar false (keyWithAllButtons 99) = (99, true) ∧
      lc3_getchar false (buttonsDown [5, 9]) = (120, true) :=
  ⟨(C14_input_precedence (keyWithAllButtons 99)).1 99 (by decide) rfl
      (fun j hj => by
        simp only [keyWithAllButtons, beq_eq_false_iff_ne, ne_eq]
        omega),
    (C14_input_precedence (buttonsDown [5, 9])).2.1 (fun _ _ => rfl)
      [(RETRO_DEVICE_ID_JOYPAD_A, 97), (RETRO_DEVICE_ID_JOYPAD_B, 98)]
      [(RETRO_DEVICE_ID_JOYPAD_Y, 121), (RETRO_DEVICE_ID_JOYPAD_UP, 117),
        (RETRO_DEVICE_ID_JOYPAD_DOWN, 100), (RETRO_DEVICE_ID_JOYPAD_LEFT, 108),
        (RETRO_DEVICE_ID_JOYPAD_RIGHT, 114), (RETRO_DEVICE_ID_JOYPAD_START, 10)]
      (RETRO_DEVICE_ID_JOYPAD_X, 120) rfl (by decide) (by decide)⟩

/-! ### Text console: carriage return, ignored codes, runs of characters -/

/-- Claim C17. Carriage return then write: with the cursor on an in-bounds row
`row` (at any column `col`), a code with low byte 13 leaves the grid and the row
as they are and sets the column to 0; a following printable `c` is stored in
cell `(row,0)`, every other cell (cell `(row,col)` included when `col` is not 0)
keeps its content, and the cursor ends at `(1,row)`. -/
theorem C17_carriage_return_then_write (s : Console) (vr vc row : Nat)
    (hy : s.cursor_y = (row : Int)) (hrow : row < 30) (hr : vr % 256 = 13)
    (hc : 32 ≤ vc % 256 ∧ vc % 256 ≤ 126) :
    ∃ s1 s2, lc3_putchar s vr = some s1 ∧
      s1.textbuf = s.textbuf ∧ s1.cursor_y = s.cursor_y ∧ s1.cursor_x = 0 ∧
      lc3_putchar s1 vc = some s2 ∧
      s2.textbuf row 0 = vc % 256 ∧
      (∀ r k, ¬ (r = row ∧ k = 0) → s2.textbuf r k = s.textbuf r k) ∧
      s2.cursor_x = 1 ∧ s2.cursor_y = (row : Int) := by
  have hb1 : ({ s with cursor_x := 0 } : Console).cursorInBounds := by
    refine ⟨le_refl _, by norm_num, ?_, ?_⟩
    · show 0 ≤ s.cursor_y; omega
    · show s.cursor_y < 30; omega
  have ty : s.cursor_y.toNat = row := by omega
  refine ⟨_, _, putchar_cr s vr hr, rfl, rfl, rfl,
    putchar_printable_inner { s with cursor_x := 0 } vc hc hb1 (by norm_num), ?_, ?_, ?_, ?_⟩
  · show storeCell s.textbuf s.cursor_y.toNat (0 : Int).toNat (vc % 256) row 0 = vc % 256
    simp [storeCell_apply, ty]
  · intro r k hrk
    show storeCell s.textbuf s.cursor_y.toNat (0 : Int).toNat (vc % 256) r k = s.textbuf r k
    have hrk' : ¬ (r = s.cursor_y.toNat ∧ k = (0 : Int).toNat) := by
      rw [ty]
      exact hrk
    simp only [storeCell_apply, hrk', if_false]
  · show (0 : Int) + 1 = 1
    norm_num
  · exact hy

/-- Witness for C17: `A` after a carriage return at `(7,3)` on a grid of spaces. -/
theorem C17_carriage_return_then_write_witness :
    ∃ s1 s2, lc3_putchar { textbuf := fun _ _ => 32, cursor_x := 7, cursor_y := 3 } 13 = some s1 ∧
      s1.textbuf = (fun _ _ => 32) ∧ s1.cursor_y = 3 ∧ s1.cursor_x = 0 ∧
      lc3_putchar s1 65 = some s2 ∧
      s2.textbuf 3 0 = 65 % 256 ∧
      (∀ r k, ¬ (r = 3 ∧ k = 0) → s2.textbuf r k = 32) ∧
      s2.cursor_x = 1 ∧ s2.cursor_y = ((3 : Nat) : Int) :=
  C17_carriage_return_then_write { textbuf := fun _ _ => 32, cursor_x := 7, cursor_y := 3 }
    13 65 3 rfl (by decide) (by decide) (by decide)

/-- Claim C18. Ignored codes: with the cursor in bounds, a code whose low byte is
neither 13, nor 10, nor in `[32,126]` is consumed without any change: the
console afterwards is the console before, grid and cursor alike. -/
theorem C18_ignored_codes (s : Console) (v : Nat) (hb : s.cursorInBounds)
    (h13 : v % 256 ≠ 13) (h10 : v % 256 ≠ 10) (hnp : ¬ (32 ≤ v % 256 ∧ v % 256 ≤ 126)) :
    lc3_putchar s v = some s := by
  rw [putchar_other s v h13 h10 hnp, scrollCheck_of_lt s hb.2.2.2]

/-- Witness for C18: backspace (8), the code 127 and the code `0x1234 + 0xC8`
(low byte 252) on the console holding `A`. -/
theorem C18_ignored_codes_witness :
    lc3_putchar consoleA 8 = some consoleA ∧ lc3_putchar consoleA 127 = some consoleA ∧
      lc3_putchar consoleA 4860 = some consoleA :=
  have hb : consoleA.cursorInBounds := ⟨by decide, by decide, by decide, by decide⟩
  ⟨C18_ignored_codes consoleA 8 hb (by decide) (by decide) (by decide),
    C18_ignored_codes consoleA 127 hb (by decide) (by decide) (by decide),
    C18_ignored_codes consoleA 4860 hb (by decide) (by decide) (by decide)⟩

theorem traced_fst (s : Console) (v : Nat) :
    (lc3_putchar_traced s v).map Prod.fst = lc3_putchar s v := by
  unfold lc3_putchar_traced lc3_putchar scrollCheckTraced
  simp only []
  split
  · rfl
  · split
    · rfl
    · split
      · split
        · split <;> rfl
        · rfl
      · rfl

theorem traced_printable_inner (s : Console) (v : Nat)
    (hc : 32 ≤ v % 256 ∧ v % 256 ≤ 126) (hb : s.cursorInBounds) (hx : s.cursor_x < 39) :
    lc3_putchar_traced s v =
      some ({ textbuf := storeCell s.textbuf s.cursor_y.toNat s.cursor_x.toNat (v % 256)
              cursor_x := s.cursor_x + 1
              cursor_y := s.cursor_y }, false) := by
  obtain ⟨h1, h2, h3, h4⟩ := hb
  have e13 : ¬ v % 256 = 13 := by omega
  have e10 : ¬ v % 256 = 10 := by omega
  have epr : 32 ≤ v % 256 ∧ v % 256 < 127 := by omega
  have hin : 0 ≤ s.cursor_y ∧ s.cursor_y < (FB_ROWS : Int) ∧
      0 ≤ s.cursor_x ∧ s.cursor_x < (FB_COLS : Int) := by
    simp only [FB_ROWS, FB_COLS]; omega
  have hw : ¬ (s.cursor_x + 1 ≥ (FB_COLS : Int)) := by simp only [FB_COLS]; omega
  have hs : ¬ (s.cursor_y ≥ (FB_ROWS : Int)) := by simp only [FB_ROWS]; omega
  simp only [lc3_putchar_traced, land_0xFF, e13, e10, epr, hin, hw, scrollCheckTraced,
    scrollCheck, hs, if_true, if_false, and_self, decide_False]

theorem traced_printable_wrap (s : Console) (v : Nat)
    (hc : 32 ≤ v % 256 ∧ v % 256 ≤ 126) (hb : s.cursorInBounds) (hx : s.cursor_x = 39) :
    lc3_putchar_traced s v =
      some (scrollCheck
              { textbuf := storeCell s.textbuf s.cursor_y.toNat 39 (v % 256)
                cursor_x := 0
                cursor_y := s.cursor_y + 1 },
            decide (s.cursor_y + 1 ≥ 30)) := by
  obtain ⟨h1, h2, h3, h4⟩ := hb
  have e13 : ¬ v % 256 = 13 := by omega
  have e10 : ¬ v % 256 = 10 := by omega
  have epr : 32 ≤ v % 256 ∧ v % 256 < 127 := by omega
  have hin : 0 ≤ s.cursor_y ∧ s.cursor_y < (FB_ROWS : Int) ∧
      0 ≤ s.cursor_x ∧ s.cursor_x < (FB_COLS : Int) := by
    simp only [FB_ROWS, FB_COLS]; omega
  have hw : s.cursor_x + 1 ≥ (FB_COLS : Int) := by simp only [FB_COLS]; omega
  have ht : s.cursor_x.toNat = 39 := by omega
  simp only [lc3_putchar_traced, land_0xFF, e13, e10, epr, hin, hw, ht, scrollCheckTraced,
    if_true, if_false, and_self]
  rfl

theorem feed_snoc (s : Console) (vs : List Nat) (v : Nat) :
    feed s (vs ++ [v]) = feedStep (feed s vs) v := by
  simp [feed, List.foldl_append]

theorem feedStep_fst (acc : Option (Console × Nat)) (v : Nat) :
    (feedStep acc v).map Prod.fst = (acc.map Prod.fst).bind (fun t => lc3_putchar t v) := by
  cases acc with
  | none => rfl
  | some p =>
    obtain ⟨s, n⟩ := p
    have h := traced_fst s v
    cases ht : lc3_putchar_traced s v with
    | none =>
      rw [ht] at h
      simp only [feedStep, ht, Option.map_some', Option.some_bind]
      exact h
    | some q =>
      obtain ⟨s', b⟩ := q
      rw [ht] at h
      simp only [feedStep, ht, Option.map_some', Option.some_bind]
      exact h

/-- The console component of `feed` is the plain run of `lc3_putchar` calls. -/
theorem feed_console (s : Console) (vs : List Nat) :
    (feed s vs).map Prod.fst = feedConsole s vs := by
  have gen : ∀ (l : List Nat) (acc : Option (Console × Nat)),
      (l.foldl feedStep acc).map Prod.fst =
        l.foldl (fun a v => a.bind (fun t => lc3_putchar t v)) (acc.map Prod.fst) := by
    intro l
    induction l with
    | nil => intro acc; rfl
    | cons v t ih =>
      intro acc
      rw [List.foldl_cons, List.foldl_cons, ih, feedStep_fst]
  exact gen vs (some (s, 0))

theorem feedStep_of_traced (s s' : Console) (n v : Nat) (b : Bool)
    (h : lc3_putchar_traced s v = some (s', b)) :
    feedStep (some (s, n)) v = some (s', if b then n + 1 else n) := by
  simp only [feedStep, h]

theorem feed_fill (cs : List Nat) :
    (∀ c, c ∈ cs → 32 ≤ c ∧ c ≤ 126) → cs.length < 1200 →
    ∃ s, feed Console.cleared cs = some (s, 0) ∧
      s.cursor_x = ((cs.length % 40 : Nat) : Int) ∧
      s.cursor_y = ((cs.length / 40 : Nat) : Int) ∧
      ∀ r k, s.textbuf r k = if k < 40 ∧ r * 40 + k < cs.length then cs.getD (r * 40 + k) 0 else 0 := by
  induction cs using List.reverseRecOn with
  | nil =>
    intro _ _
    exact ⟨Console.cleared, rfl, rfl, rfl, fun r k => by simp [Console.cleared]⟩
  | append_singleton l a ih =>
    intro hp hn
    have hlen : (l ++ [a]).length = l.length + 1 := by simp
    rw [hlen] at hn
    obtain ⟨s, hfeed, hcx, hcy, hcells⟩ :=
      ih (fun c hc => hp c (List.mem_append_left _ hc)) (by omega)
    have ha := hp a (List.mem_append_right _ (List.mem_singleton_self a))
    have hamod : a % 256 = a := by omega
    have hc : 32 ≤ a % 256 ∧ a % 256 ≤ 126 := by omega
    have hb : s.cursorInBounds := by
      refine ⟨?_, ?_, ?_, ?_⟩ <;> omega
    have tx : s.cursor_x.toNat = l.length % 40 := by omega
    have ty : s.cursor_y.toNat = l.length / 40 := by omega
    have hcell : ∀ r k,
        storeCell s.textbuf (l.length / 40) (l.length % 40) a r k =
          if k < 40 ∧ r * 40 + k < l.length + 1 then (l ++ [a]).getD (r * 40 + k) 0 else 0 := by
      intro r k
      rw [storeCell_apply, hcells r k]
      by_cases h1 : k < 40 ∧ r * 40 + k < l.length
      · have hne : ¬ (r = l.length / 40 ∧ k = l.length % 40) := by omega
        have h2 : k < 40 ∧ r * 40 + k < l.length + 1 := by omega
        rw [if_neg hne, if_pos h1, if_pos h2, List.getD_append l [a] 0 _ h1.2]
      · by_cases h3 : k < 40 ∧ r * 40 + k = l.length
        · have heq : r = l.length / 40 ∧ k = l.length % 40 := by omega
          have h2 : k < 40 ∧ r * 40 + k < l.length + 1 := by omega
          rw [if_pos heq, if_pos h2, h3.2, List.getD_append_right l [a] 0 _ (le_refl _)]
          simp
        · have hne : ¬ (r = l.length / 40 ∧ k = l.length % 40) := by omega
          have h2 : ¬ (k < 40 ∧ r * 40 + k < l.length + 1) := by omega
          rw [if_neg hne, if_neg h1, if_neg h2]
    rw [feed_snoc, hfeed, hlen]
    by_cases hx : l.length % 40 < 39
    · rw [feedStep_of_traced s _ 0 a false (traced_printable_inner s a hc hb (by omega))]
      refine ⟨_, rfl, ?_, ?_, ?_⟩
      · show s.cursor_x + 1 = _
        omega
      · show s.cursor_y = _
        omega
      · intro r k
        show storeCell s.textbuf s.cursor_y.toNat s.cursor_x.toNat (a % 256) r k = _
        rw [tx, ty, hamod]
        exact hcell r k
    · have hx39 : s.cursor_x = 39 := by omega
      have hlt : s.cursor_y + 1 < 30 := by omega
      have hnd : decide (s.cursor_y + 1 ≥ 30) = false := by
        rw [decide_eq_false_iff_not]
        omega
      have htr := traced_printable_wrap s a hc hb hx39
      rw [hnd, scrollCheck_of_lt _ hlt] at htr
      rw [feedStep_of_traced s _ 0 a false htr]
      refine ⟨_, rfl, ?_, ?_, ?_⟩
      · show (0 : Int) = _
        omega
      · show s.cursor_y + 1 = _
        omega
      · intro r k
        show storeCell s.textbuf s.cursor_y.toNat 39 (a % 256) r k = _
        have h39 : l.length % 40 = 39 := by omega
        rw [ty, hamod, ← h39]
        exact hcell r k

theorem getElem?_eq_some_getD (l : List Nat) (i : Nat) (h : i < l.length) :
    l[i]? = some (l.getD i 0) := by
  rw [List.getD_eq_getElem l 0 h, List.getElem?_eq_getElem h]

theorem snoc_of_length_succ (cs : List Nat) (n : Nat) (h : cs.length = n + 1) :
    ∃ l a, cs = l ++ [a] ∧ l.length = n := by
  rcases List.eq_nil_or_concat cs with hnil | ⟨l, a, hc⟩
  · rw [hnil] at h
    simp at h
  · rw [List.concat_eq_append] at hc
    refine ⟨l, a, hc, ?_⟩
    rw [hc] at h
    simp at h
    exact h

/-- Claim C16. Filling without scroll: `n < 30*40` printable characters fed to
`lc3_putchar` from the cleared console are all consumed, no scroll takes place,
the cursor ends at column `n mod 40`, row `n div 40`, cell `(i div 40, i mod 40)`
holds the `i`-th character for every `i < n`, and every other cell is empty. The
same holds after each prefix of `m` characters, so the row after `m` characters
is `m div 40`: for `n < 40` the row stays 0 and the column is `n`, and for
`n = 40` the cursor is at column 0 of row 1. -/
theorem C16_filling_without_scroll (cs : List Nat)
    (hp : ∀ c, c ∈ cs → 32 ≤ c ∧ c ≤ 126) (hn : cs.length < 30 * 40) :
    (∃ s, feed Console.cleared cs = some (s, 0) ∧
      s.cursor_x = ((cs.length % 40 : Nat) : Int) ∧
      s.cursor_y = ((cs.length / 40 : Nat) : Int) ∧
      (∀ i, i < cs.length → cs[i]? = some (s.textbuf (i / 40) (i % 40))) ∧
      (∀ r k, r < 30 → k < 40 → cs.length ≤ r * 40 + k → s.textbuf r k = 0) ∧
      (cs.length < 40 → s.cursor_x = (cs.length : Int) ∧ s.cursor_y = 0) ∧
      (cs.length = 40 → s.cursor_x = 0 ∧ s.cursor_y = 1)) ∧
    (∀ m, m ≤ cs.length →
      ∃ sm, feed Console.cleared (cs.take m) = some (sm, 0) ∧
        sm.cursor_x = ((m % 40 : Nat) : Int) ∧ sm.cursor_y = ((m / 40 : Nat) : Int)) := by
  constructor
  · obtain ⟨s, hfeed, hcx, hcy, hcells⟩ := feed_fill cs hp (by omega)
    refine ⟨s, hfeed, hcx, hcy, ?_, ?_, ?_, ?_⟩
    · intro i hi
      rw [getElem?_eq_some_getD cs i hi, hcells (i / 40) (i % 40)]
      have h1 : i % 40 < 40 ∧ i / 40 * 40 + i % 40 < cs.length := by omega
      have h2 : i / 40 * 40 + i % 40 = i := by omega
      rw [if_pos h1, h2]
    · intro r k _ _ hge
      rw [hcells r k, if_neg (by omega)]
    · intro hlt
      constructor <;> omega
    · intro heq
      constructor <;> omega
  · intro m hm
    have hlen : (cs.take m).length = m := List.length_take_of_le hm
    obtain ⟨sm, hfeed, hcx, hcy, _⟩ :=
      feed_fill (cs.take m) (fun c hc => hp c (List.mem_of_mem_take hc)) (by omega)
    rw [hlen] at hcx hcy
    exact ⟨sm, hfeed, hcx, hcy⟩

/-- Witness for C16: the two characters `H`, `i`. -/
theorem C16_filling_without_scroll_witness :
    ∃ s, feed Console.cleared [72, 105] = some (s, 0) ∧
      s.cursor_x = ((([72, 105] : List Nat).length % 40 : Nat) : Int) ∧
      s.cursor_y = ((([72, 105] : List Nat).length / 40 : Nat) : Int) ∧
      (∀ i, i < ([72, 105] : List Nat).length →
        ([72, 105] : List Nat)[i]? = some (s.textbuf (i / 40) (i % 40))) ∧
      (∀ r k, r < 30 → k < 40 → ([72, 105] : List Nat).length ≤ r * 40 + k →
        s.textbuf r k = 0) ∧
      (([72, 105] : List Nat).length < 40 →
        s.cursor_x = (([72, 105] : List Nat).length : Int) ∧ s.cursor_y = 0) ∧
      (([72, 105] : List Nat).length = 40 → s.cursor_x = 0 ∧ s.cursor_y = 1) :=
  (C16_filling_without_scroll [72, 105] (by decide) (by decide)).1

/-- Claim C15. Overflow by one character: 1201 printable characters fed to
`lc3_putchar` from the cleared console are all consumed and exactly one scroll
takes place. Afterwards row `r`, for `r < 29`, holds the characters
`c_{40(r+1)} .. c_{40(r+1)+39}` in order (the first 40 characters are gone),
row 29 holds `c_1200` at column 0 and is empty in its other 39 cells, and the
cursor is at column 1 of row 29. -/
theorem C15_overflow_by_one_character (cs : List Nat)
    (hp : ∀ c, c ∈ cs → 32 ≤ c ∧ c ≤ 126) (hlen : cs.length = 30 * 40 + 1) :
    ∃ s, feed Console.cleared cs = some (s, 1) ∧
      s.cursor_x = 1 ∧ s.cursor_y = 29 ∧
      (∀ r k, r < 29 → k < 40 → cs[40 * (r + 1) + k]? = some (s.textbuf r k)) ∧
      cs[1200]? = some (s.textbuf 29 0) ∧
      (∀ k, 0 < k → k < 40 → s.textbuf 29 k = 0) := by
  obtain ⟨la, b, hcs1, hla⟩ := snoc_of_length_succ cs 1200 hlen
  obtain ⟨l, a, hla1, hl⟩ := snoc_of_length_succ la 1199 hla
  have hpl : ∀ c, c ∈ l → 32 ≤ c ∧ c ≤ 126 := fun c hc =>
    hp c (by rw [hcs1, hla1]; exact List.mem_append_left _ (List.mem_append_left _ hc))
  have ha : 32 ≤ a ∧ a ≤ 126 :=
    hp a (by
      rw [hcs1, hla1]
      exact List.mem_append_left _ (List.mem_append_right _ (List.mem_singleton_self a)))
  have hb : 32 ≤ b ∧ b ≤ 126 :=
    hp b (by rw [hcs1]; exact List.mem_append_right _ (List.mem_singleton_self b))
  have hamod : a % 256 = a := by omega
  have hbmod : b % 256 = b := by omega
  obtain ⟨s0, hfeed, hcx, hcy, hcells⟩ := feed_fill l hpl (by omega)
  rw [hl] at hcx hcy hcells
  have hcx0 : s0.cursor_x = 39 := by omega
  have hcy0 : s0.cursor_y = 29 := by omega
  have hb0 : s0.cursorInBounds := by
    refine ⟨?_, ?_, ?_, ?_⟩ <;> omega
  have ty0 : s0.cursor_y.toNat = 29 := by omega
  -- the 1200th character: stored at (29,39), then the scroll
  have hd : decide (s0.cursor_y + 1 ≥ 30) = true := by
    rw [decide_eq_true_iff]
    omega
  have htr1 := traced_printable_wrap s0 a (by omega) hb0 hcx0
  rw [hd, scrollCheck_of_ge _ (by show 30 ≤ s0.cursor_y + 1; omega), ty0, hamod] at htr1
  -- the 1201st character: stored at (29,0)
  have hb1 : ({ textbuf := memsetLastRow (memmoveUp (storeCell s0.textbuf 29 39 a)),
                cursor_x := 0, cursor_y := 29 } : Console).cursorInBounds :=
    ⟨le_refl _, by norm_num, by norm_num, by norm_num⟩
  have htr2 := traced_printable_inner
    { textbuf := memsetLastRow (memmoveUp (storeCell s0.textbuf 29 39 a)),
      cursor_x := 0, cursor_y := 29 } b (by omega) hb1 (by norm_num)
  rw [hbmod] at htr2
  have hrun : feed Console.cleared cs =
      some ({ textbuf :=
                storeCell (memsetLastRow (memmoveUp (storeCell s0.textbuf 29 39 a))) 29 0 b,
              cursor_x := 0 + 1, cursor_y := 29 }, 1) := by
    rw [hcs1, hla1, feed_snoc, feed_snoc, hfeed, feedStep_of_traced s0 _ 0 a true htr1,
      feedStep_of_traced _ _ _ b false htr2]
    rfl
  refine ⟨_, hrun, by norm_num, rfl, ?_, ?_, ?_⟩
  · intro r k hr hk
    show cs[40 * (r + 1) + k]? =
      some (storeCell (memsetLastRow (memmoveUp (storeCell s0.textbuf 29 39 a))) 29 0 b r k)
    rw [storeCell_apply, if_neg (by omega), scrolled_cell _ r k (by omega) hk,
      if_neg (by omega), storeCell_apply, hcells (r + 1) k]
    by_cases hlast : r + 1 = 29 ∧ k = 39
    · have hidx : 40 * (r + 1) + k = 1199 := by omega
      rw [if_pos hlast, hidx, hcs1, hla1,
        List.getElem?_append_left (by simp [hl]),
        List.getElem?_append_right (by omega), hl]
      rfl
    · have hin : k < 40 ∧ (r + 1) * 40 + k < 1199 := by omega
      have hidx : 40 * (r + 1) + k = (r + 1) * 40 + k := by omega
      have hlt1 : (r + 1) * 40 + k < (l ++ [a]).length := by
        rw [List.length_append, hl]
        simp only [List.length_singleton]
        omega
      rw [if_neg hlast, if_pos hin, hidx, hcs1, hla1,
        List.getElem?_append_left hlt1,
        List.getElem?_append_left (by omega)]
      exact getElem?_eq_some_getD l _ (by omega)
  · show cs[1200]? =
      some (storeCell (memsetLastRow (memmoveUp (storeCell s0.textbuf 29 39 a))) 29 0 b 29 0)
    rw [storeCell_apply, if_pos ⟨rfl, rfl⟩, hcs1, List.getElem?_append_right (by omega), hla]
    rfl
  · intro k hk0 hk
    show storeCell (memsetLastRow (memmoveUp (storeCell s0.textbuf 29 39 a))) 29 0 b 29 k = 0
    rw [storeCell_apply, if_neg (by omega), scrolled_cell _ 29 k (by omega) hk, if_pos rfl]

theorem sampleText_printable : ∀ c, c ∈ sampleText → 32 ≤ c ∧ c ≤ 126 := by
  intro c hc
  simp only [sampleText, List.mem_map, List.mem_range] at hc
  obtain ⟨i, _, rfl⟩ := hc
  omega

theorem sampleText_length : sampleText.length = 30 * 40 + 1 := by
  simp [sampleText]

/-- Witness for C15: the 1201 characters `32 + i mod 95`. -/
theorem C15_overflow_by_one_character_witness :
    ∃ s, feed Console.cleared sampleText = some (s, 1) ∧
      s.cursor_x = 1 ∧ s.cursor_y = 29 ∧
      (∀ r k, r < 29 → k < 40 → sampleText[40 * (r + 1) + k]? = some (s.textbuf r k)) ∧
      sampleText[1200]? = some (s.textbuf 29 0) ∧
      (∀ k, 0 < k → k < 40 → s.textbuf 29 k = 0) :=
  C15_overflow_by_one_character sampleText sampleText_printable sampleText_length

/-! ### Frame renderer: one glyph, and the bounds of the stores -/

theorem glyphCoordinate_singleCell_origin (font : Nat → Nat → Nat) (c px py : Nat)
    (hc : c ≠ 0) :
    glyphCoordinate font (singleCell 0 0 c) px py ↔
      (px < 8 ∧ py < 8 ∧ glyphBit font c px py = true) := by
  constructor
  · rintro ⟨y, _, x, _, hne, gy, hgy, gx, hgx, hbit, hpx, hpy⟩
    have hyx : y = 0 ∧ x = 0 := by
      by_contra hcon
      exact hne (by simp only [singleCell, hcon, if_false])
    obtain ⟨rfl, rfl⟩ := hyx
    have hcell : singleCell 0 0 c 0 0 = c := by simp [singleCell]
    rw [hcell] at hbit
    have e1 : px = gx := by omega
    have e2 : py = gy := by omega
    rw [e1, e2]
    exact ⟨hgx, hgy, hbit⟩
  · rintro ⟨hpx, hpy, hbit⟩
    have hcell : singleCell 0 0 c 0 0 = c := by simp [singleCell]
    refine ⟨0, by norm_num, 0, by norm_num, ?_, py, hpy, px, hpx, ?_, by omega, by omega⟩
    · rw [hcell]
      exact hc
    · rw [hcell]
      exact hbit

/-- Claim C19. Single glyph at the origin: when `retro_run` runs with a VM that
is not halted and the grid it renders holds the printable `c` in cell `(0,0)`
and is empty elsewhere, then, whatever the pixel buffer held before, pixel
`(x,y)` of the 256x256 frame passed to `video_cb` is foreground if `x < 8`,
`y < 8` and bit `x` of row `y` of the glyph of `c` is set, and background (0)
otherwise; foreground and background differ. -/
theorem C19_single_glyph_at_origin {σ : Type} (api : VMApi σ) (font : Nat → Nat → Nat)
    (s : Core σ) (v : σ) (c : Nat) (hvm : s.vm = some v) (hh : s.vm_halted = false)
    (hc : 32 ≤ c ∧ c ≤ 126)
    (hgrid : (retro_run api font s).state.console.textbuf = singleCell 0 0 c) :
    FOREGROUND ≠ 0 ∧
      ∀ px py, px < 256 → py < 256 →
        pixelAt (retro_run api font s).video px py =
          if px < 8 ∧ py < 8 ∧ glyphBit font c px py = true then FOREGROUND else 0 := by
  refine ⟨by decide, ?_⟩
  intro px py hpx hpy
  have hf := (retro_run_running_frame api font s v hvm hh).2
  rw [hf, hgrid]
  have hcol : ∀ y, y < 30 → ∀ x, x < 40 → singleCell 0 0 c y x ≠ 0 → x < 32 := by
    intro y _ x _ hne
    by_contra hcon
    exact hne (by
      have : ¬ (y = 0 ∧ x = 0) := by omega
      simp only [singleCell, this, if_false])
  have hr := renderGrid_columns_below_32 font (singleCell 0 0 c) s.framebuffer hcol px py hpx hpy
  have hiff := glyphCoordinate_singleCell_origin font c px py (by omega)
  by_cases hcond : px < 8 ∧ py < 8 ∧ glyphBit font c px py = true
  · rw [if_pos hcond]
    exact hr.1 (hiff.mpr hcond)
  · rw [if_neg hcond]
    exact hr.2 (fun hg => hcond (hiff.mp hg))

/-- Witness for C19: a running VM that leaves the console alone, the console
holding `A` in cell `(0,0)`, a pixel buffer full of sevens. -/
theorem C19_single_glyph_at_origin_witness :
    FOREGROUND ≠ 0 ∧
      ∀ px py, px < 256 → py < 256 →
        pixelAt (retro_run idleVM sampleFont (runningCore (fun _ => 7))).video px py =
          if px < 8 ∧ py < 8 ∧ glyphBit sampleFont 65 px py = true then FOREGROUND else 0 :=
  C19_single_glyph_at_origin idleVM sampleFont (runningCore (fun _ => 7)) () 65 rfl rfl
    (by decide)
    (by
      rw [(retro_run_running_frame idleVM sampleFont (runningCore (fun _ => 7)) () rfl rfl).1,
        stepLoop_idleVM]
      rfl)

theorem foldOpt_eq_foldl {α β : Type} (f : β → α → Option β) (g : β → α → β) :
    ∀ (l : List α), (∀ b a, a ∈ l → f b a = some (g b a)) →
      ∀ b, foldOpt f b l = some (l.foldl g b) := by
  intro l
  induction l with
  | nil => intro _ b; rfl
  | cons a t ih =>
    intro h b
    have ha := h b a (List.mem_cons_self a t)
    have ht := ih (fun b' a' ha' => h b' a' (List.mem_cons_of_mem a ha'))
    simp only [foldOpt, ha, List.foldl_cons]
    exact ht (g b a)

theorem pixelIndex_le (y x gy gx : Nat) (hy : y < 30) (hx : x < 40) (hgy : gy < 8)
    (hgx : gx < 8) : pixelIndex y x gy gx ≤ 61503 := by
  simp only [pixelIndex, CHAR_H, CHAR_W, VIDEO_WIDTH]
  omega

theorem blitRowChecked_eq (font : Nat → Nat → Nat) (c y x gy : Nat) (fb : Nat → Nat)
    (hy : y < 30) (hx : x < 40) (hgy : gy < 8) :
    blitRowChecked font c y x gy fb = some (blitRow font c y x gy fb) := by
  apply foldOpt_eq_foldl
  intro b gx hgx
  have hgx' : gx < 8 := List.mem_range.mp hgx
  have hle := pixelIndex_le y x gy gx hy hx hgy hgx'
  have hlt : pixelIndex y x gy gx < VIDEO_WIDTH * VIDEO_HEIGHT := by
    simp only [VIDEO_WIDTH, VIDEO_HEIGHT]
    omega
  by_cases hb : glyphBit font c gx gy = true
  · simp only [hb, if_true, storePixelChecked, hlt]
  · simp only [hb, if_false]
    rfl

theorem blitGlyphChecked_eq (font : Nat → Nat → Nat) (c y x : Nat) (fb : Nat → Nat)
    (hy : y < 30) (hx : x < 40) :
    blitGlyphChecked font c y x fb = some (blitGlyph font c y x fb) := by
  apply foldOpt_eq_foldl
  intro b gy hgy
  exact blitRowChecked_eq font c y x gy b hy hx (List.mem_range.mp hgy)

theorem renderTextRowChecked_eq (font : Nat → Nat → Nat) (tb : Nat → Nat → Nat) (y : Nat)
    (fb : Nat → Nat) (hy : y < 30) :
    renderTextRowChecked font tb y fb = some (renderTextRow font tb y fb) := by
  apply foldOpt_eq_foldl
  intro b x hx
  by_cases hc : tb y x = 0
  · simp only [hc, if_true]
  · simp only [hc, if_false]
    exact blitGlyphChecked_eq font (tb y x) y x b hy (List.mem_range.mp hx)

theorem renderGridChecked_eq (font : Nat → Nat → Nat) (tb : Nat → Nat → Nat) (fb : Nat → Nat) :
    renderGridChecked font tb fb = some (renderGrid font tb fb) := by
  apply foldOpt_eq_foldl
  intro b y hy
  exact renderTextRowChecked_eq font tb y b (List.mem_range.mp hy)

/-- Claim C20. Pixel writes stay inside the buffer: for loop variables
`y < 30`, `x < 40`, `gy, gx < 8` the store of the render pass addresses index
`(y*8+gy)*256 + (x*8+gx)`, which is at most 61503 (reached at `y = 29`, `x = 39`,
`gy = gx = 7`) and so below `256*256 = 65536`; hence for every glyph table, grid
and buffer the render pass with checked stores never fails and computes what
the render pass computes, and it leaves every index above 61503 untouched. -/
theorem C20_pixel_writes_stay_in_buffer :
    (∀ y x gy gx, y < 30 → x < 40 → gy < 8 → gx < 8 →
      pixelIndex y x gy gx = (y * 8 + gy) * 256 + (x * 8 + gx) ∧
        pixelIndex y x gy gx ≤ 61503 ∧ pixelIndex y x gy gx < 256 * 256) ∧
    pixelIndex 29 39 7 7 = 61503 ∧
    (∀ (font : Nat → Nat → Nat) (tb : Nat → Nat → Nat) (fb : Nat → Nat),
      renderGridChecked font tb fb = some (renderGrid font tb fb)) ∧
    (∀ (font : Nat → Nat → Nat) (tb : Nat → Nat → Nat) (fb : Nat → Nat) (i : Nat),
      61503 < i → renderGrid font tb fb i = fb i) := by
  refine ⟨?_, rfl, renderGridChecked_eq, ?_⟩
  · intro y x gy gx hy hx hgy hgx
    have hle := pixelIndex_le y x gy gx hy hx hgy hgx
    exact ⟨rfl, hle, by omega⟩
  · intro font tb fb i hi
    apply (renderGrid_apply font tb fb i).2
    rintro ⟨y, hy, x, hx, _, gy, hgy, gx, hgx, _, hidx⟩
    have hle := pixelIndex_le y x gy gx (List.mem_range.mp hy) (List.mem_range.mp hx)
      (List.mem_range.mp hgy) (List.mem_range.mp hgx)
    omega

/-- Witness for C20: the store for bit 7 of glyph row 2 of cell `(3,35)`, and an
index past the last one the render pass can reach. -/
theorem C20_pixel_writes_stay_in_buffer_witness :
    (pixelIndex 3 35 2 7 = (3 * 8 + 2) * 256 + (35 * 8 + 7) ∧
        pixelIndex 3 35 2 7 ≤ 61503 ∧ pixelIndex 3 35 2 7 < 256 * 256) ∧
      renderGrid solidFont (fun _ _ => 65) (fun _ => 7) 61504 = 7 :=
  ⟨C20_pixel_writes_stay_in_buffer.1 3 35 2 7 (by decide) (by decide) (by decide) (by decide),
    C20_pixel_writes_stay_in_buffer.2.2.2 solidFont (fun _ _ => 65) (fun _ => 7) 61504
      (by decide)⟩

end LC3Sim
